import Mathlib

/-!
# Bicycle tachometer firmware: a shallow embedding of `src/src/main.c`

The firmware is one C file: a set of global variables, the endless loop of
`app_main`, and the helpers `NVS`, `UpdateBuffers`, `UpdateNVSData`,
`ResetData`, `RewriteDisplayData` and `SwitchDisplayMode`.

Conventions of the embedding.

* The globals become the fields of `State`, under their C names.  Each block
  of the loop body is a function `State → ... → State`; the loop body
  `loopIter` is their composition in program order.
* `double` values are rationals (exact arithmetic).  A division whose divisor
  is zero has no rational value: `fdiv` returns `none` for it, and `AvgSpeed`,
  the only variable assigned from a division by a variable, is an `Option ℚ`.
* `int` and `int32_t` values are integers; `++` wraps to 32 bits
  (`wrapInt32`), and `toInt32` is the conversion from `double`.
* `esp_timer_get_time() / 1000` is a natural number of milliseconds (the
  clock is an `int64_t`).  Every call in the source is a separate argument of
  the block that makes it (the record `Clock` names the eleven calls of one
  iteration), so a block never assumes two calls return the same value.  A
  read that is compared enters the comparison as it is; a read that is
  assigned to one of the `unsigned long` variables is the argument the block
  stores.  On the ESP32 `unsigned long` has 32 bits, so the assignment
  converts the read modulo 2^32 (`toULong`): `Clock.stored`, `loopIterULong`
  and the `...ULong` runs of the buttons give the blocks the converted
  reads.  `loopIter` and the plain runs are the same code with the reads
  stored as they are, which is what the program does while the clock is below
  2^32 ms.
* The rounding of `double` arithmetic is not part of `statsTick` and
  `startup`.  `fl64` is the binary64 rounding, and `persist64` and
  `startup64` are the scaling of the distance on line 153 and its reload on
  line 107 with the product and the quotient rounded.
* The non-volatile store is the pair of its two entries (`Store`), each
  present or absent; the calls that open, write and commit it succeed.
* `sprintf` is kept symbolic: a buffer holds the format string and the
  arguments it was written from (`Text`).  The display is the list of the
  commands sent to it.
-/

namespace Tachometer

/-! ## Constants -/

/-- Display mode `ALL` (`#define ALL 0`). -/
def ALL : Int := 0
/-- Display mode `SPEED` (`#define SPEED 1`). -/
def SPEED : Int := 1
/-- Display mode `DIST` (`#define DIST 2`). -/
def DIST : Int := 2
/-- Display mode `AVGSPEED` (`#define AVGSPEED 3`). -/
def AVGSPEED : Int := 3

/-- Wheel circumference in metres (`#define CIRCUMFERENCE 2.07`). -/
def CIRCUMFERENCE : ℚ := 207 / 100

/-! ## Machine arithmetic -/

/-- Two's-complement wrap of an integer into the range of `int32_t`. -/
def wrapInt32 (x : Int) : Int := (x + 2147483648) % 4294967296 - 2147483648

/-- The C conversion `(int32_t) x` of a `double`: the fraction is discarded
(truncation toward zero).  For a value whose integer part is outside
`int32_t` C leaves the result undefined; the model gives the most negative
`int32_t` there, as the conversion instruction of x86-64 does, and a theorem
that gives the value of a conversion states the range it holds in. -/
def toInt32 (x : ℚ) : Int :=
  if -2147483648 ≤ (if 0 ≤ x then ⌊x⌋ else ⌈x⌉) ∧ (if 0 ≤ x then ⌊x⌋ else ⌈x⌉) ≤ 2147483647
  then (if 0 ≤ x then ⌊x⌋ else ⌈x⌉) else -2147483648

/-- Division of two `double` values: `none` when the divisor is zero (the
result is then an infinity or a NaN, not a number). -/
def fdiv (a b : ℚ) : Option ℚ := if b = 0 then none else some (a / b)

/-! ## Data -/

/-- One argument of a `sprintf` call. -/
inductive Arg where
  | dbl (x : Option ℚ)
  | int (n : Int)
  deriving DecidableEq

/-- The text `sprintf` writes: its format string and its arguments.  A string
literal is a format without arguments. -/
structure Text where
  format : String
  args : List Arg
  deriving DecidableEq

/-- A command sent to the SSD1306 display driver. -/
inductive DrawCmd where
  | clear
  | contrast (v : Nat)
  | text (page : Nat) (t : Text) (len : Nat)
  | textX3 (page : Nat) (t : Text) (len : Nat)
  deriving DecidableEq

/-- The two entries of the NVS namespace `"tachometer"`: `none` is an absent
key. -/
structure Store where
  Distance : Option Int
  Time : Option Int
  deriving DecidableEq

/-- The global variables of `main.c`, with the store and the display.  The
five `unsigned long` timestamps are natural numbers: a block stores the read
it is given, and the ESP32 loop (`loopIterULong`) gives it the read modulo
2^32, so that the timestamps it stores are below 2^32. -/
structure State where
  lastSteadyState1 : Int
  lastFlickerableState1 : Int
  currentState1 : Int
  lastDebounceTime1 : Nat
  holdTime : Nat
  lastSteadyState2 : Int
  lastFlickerableState2 : Int
  currentState2 : Int
  lastDebounceTime2 : Nat
  SpeedMS : ℚ
  SpeedKMH : ℚ
  AvgSpeed : Option ℚ
  Distance : ℚ
  RPS : Int
  lastSpeed1 : ℚ
  periodTime : Nat
  totalWorkTime : Int
  SpdBuffer : Text
  SpdBufferAll : Text
  AvgBuffer : Text
  AvgBufferAll : Text
  DistBuffer : Text
  DistBufferAll : Text
  TimeBufferAll : Text
  IntDistance : Int
  ScreenMode : Int
  lastRewrite : Nat
  nvs : Store
  dev : List DrawCmd

/-- The values of `esp_timer_get_time() / 1000` read during one iteration of
the loop, one field per call, in program order. -/
structure Clock where
  /-- Line 129: the period check. -/
  tick : Nat
  /-- Line 157: the new `periodTime`. -/
  period : Nat
  /-- Line 161: the new `lastDebounceTime1`. -/
  debounce1 : Nat
  /-- Line 162: the new `holdTime`. -/
  hold : Nat
  /-- Line 169: the long-hold check. -/
  holdCheck : Nat
  /-- Line 296: the `holdTime` set by `ResetData`. -/
  reset : Nat
  /-- Line 174: the debounce check of button 1. -/
  accept1 : Nat
  /-- Line 182: the new `lastDebounceTime2`. -/
  debounce2 : Nat
  /-- Line 189: the debounce check of button 2. -/
  accept2 : Nat
  /-- Line 197: the render check. -/
  renderCheck : Nat
  /-- Lines 314, 321, 328, 335: the new `lastRewrite`. -/
  rewrite : Nat

/-- What one iteration of the loop reads from outside: the two pin levels and
the clock. -/
structure Input where
  level1 : Int
  level2 : Int
  clk : Clock

/-- The empty text of a zero-filled buffer. -/
def Text.empty : Text := ⟨"", []⟩

/-- A string literal passed to the display. -/
def Text.lit (s : String) : Text := ⟨s, []⟩

/-- The globals as their initialisers leave them, over the store `nvs`. -/
def initial (nvs : Store) : State :=
  { lastSteadyState1 := 0, lastFlickerableState1 := 0, currentState1 := 0,
    lastDebounceTime1 := 0, holdTime := 0,
    lastSteadyState2 := 0, lastFlickerableState2 := 0, currentState2 := 0,
    lastDebounceTime2 := 0,
    SpeedMS := 0, SpeedKMH := 0, AvgSpeed := some 0, Distance := 0, RPS := 0,
    lastSpeed1 := 0, periodTime := 0, totalWorkTime := 0,
    SpdBuffer := Text.empty, SpdBufferAll := Text.empty, AvgBuffer := Text.empty,
    AvgBufferAll := Text.empty, DistBuffer := Text.empty, DistBufferAll := Text.empty,
    TimeBufferAll := Text.empty,
    IntDistance := 0, ScreenMode := 0, lastRewrite := 0,
    nvs := nvs, dev := [] }

/-! ## The helpers -/

/-- `NVS()`, lines 217-263: each key is read into its variable; an absent key
is written with the variable's current value instead. -/
def NVS (s : State) : State :=
  let s1 : State := match s.nvs.Distance with
    | some v => { s with IntDistance := v }
    | none => { s with nvs := { s.nvs with Distance := some s.IntDistance } }
  match s1.nvs.Time with
    | some v => { s1 with totalWorkTime := v }
    | none => { s1 with nvs := { s1.nvs with Time := some s1.totalWorkTime } }

/-- `UpdateBuffers()`, lines 266-274. -/
def UpdateBuffers (s : State) : State :=
  { s with
    SpdBuffer := ⟨"%.2f", [Arg.dbl (some s.SpeedKMH)]⟩
    SpdBufferAll := ⟨" SPD: %.2fkm/h", [Arg.dbl (some s.SpeedKMH)]⟩
    DistBuffer := ⟨"%.2f", [Arg.dbl (some s.Distance)]⟩
    DistBufferAll := ⟨"DIST: %.2fkm", [Arg.dbl (some s.Distance)]⟩
    AvgBuffer := ⟨"%.2f", [Arg.dbl s.AvgSpeed]⟩
    AvgBufferAll := ⟨" AVG: %.2fkm/h", [Arg.dbl s.AvgSpeed]⟩
    TimeBufferAll := ⟨"TIME: %02lu:%02lu:%02lu",
      [Arg.int (Int.tdiv s.totalWorkTime 3600), Arg.int (Int.tdiv s.totalWorkTime 60),
       Arg.int (Int.tmod s.totalWorkTime 60)]⟩ }

/-- `UpdateNVSData()`, lines 277-292: both entries are written. -/
def UpdateNVSData (s : State) : State :=
  { s with nvs := { Distance := some s.IntDistance, Time := some s.totalWorkTime } }

/-- `ResetData()`, lines 295-304; `t` is the clock read on line 296. -/
def ResetData (s : State) (t : Nat) : State :=
  { s with
    holdTime := t
    Distance := 0
    totalWorkTime := 0
    AvgSpeed := some 0
    SpeedMS := 0
    SpeedKMH := 0
    lastSpeed1 := 0
    ScreenMode := ALL }

/-- `RewriteDisplayData()`, lines 307-337; `t` is the clock read after the
drawing commands of the branch taken. -/
def RewriteDisplayData (s : State) (t : Nat) : State :=
  if s.ScreenMode = ALL then
    { s with
      dev := s.dev ++ [DrawCmd.clear, DrawCmd.text 1 s.SpdBufferAll 20,
        DrawCmd.text 3 s.AvgBufferAll 20, DrawCmd.text 5 s.DistBufferAll 20,
        DrawCmd.text 7 s.TimeBufferAll 20]
      lastRewrite := t }
  else if s.ScreenMode = SPEED then
    { s with
      dev := s.dev ++ [DrawCmd.clear, DrawCmd.text 1 (Text.lit "SPEED:") 6,
        DrawCmd.textX3 3 s.SpdBuffer 10, DrawCmd.text 6 (Text.lit "km/h") 4]
      lastRewrite := t }
  else if s.ScreenMode = DIST then
    { s with
      dev := s.dev ++ [DrawCmd.clear, DrawCmd.text 1 (Text.lit "DISTANCE:") 10,
        DrawCmd.textX3 3 s.DistBuffer 10, DrawCmd.text 6 (Text.lit "kilometres") 11]
      lastRewrite := t }
  else if s.ScreenMode = AVGSPEED then
    { s with
      dev := s.dev ++ [DrawCmd.clear, DrawCmd.text 1 (Text.lit "AVERAGE SPEED:") 15,
        DrawCmd.textX3 3 s.AvgBuffer 10, DrawCmd.text 6 (Text.lit "km/h") 4]
      lastRewrite := t }
  else s

/-- `SwitchDisplayMode()`, lines 339-356. -/
def SwitchDisplayMode (s : State) : State :=
  if s.ScreenMode = ALL then { s with ScreenMode := SPEED }
  else if s.ScreenMode = SPEED then { s with ScreenMode := DIST }
  else if s.ScreenMode = DIST then { s with ScreenMode := AVGSPEED }
  else if s.ScreenMode = AVGSPEED then { s with ScreenMode := ALL }
  else s

/-! ## `app_main` -/

/-- Lines 96-121: the code of `app_main` before the loop, over the store
`nvs`; `t` is the clock read on line 121. -/
def startup (nvs : Store) (t : Nat) : State :=
  let s0 : State := { initial nvs with totalWorkTime := 0 }
  let s1 := NVS s0
  let s2 : State := { s1 with Distance := (s1.IntDistance : ℚ) / 1000 }
  let s3 : State := { s2 with dev := s2.dev ++ [DrawCmd.clear, DrawCmd.contrast 255,
    DrawCmd.text 2 (Text.lit "IMP - Tachometer") 17,
    DrawCmd.text 5 (Text.lit "Author: xbelov04") 17] }
  { s3 with periodTime := t }

/-- Line 129: more than 1000 ms since `periodTime`. -/
def PeriodElapsed (s : State) (t : Nat) : Prop := (t : Int) - (s.periodTime : Int) > 1000

instance (s : State) (t : Nat) : Decidable (PeriodElapsed s t) := by
  unfold PeriodElapsed; infer_instance

/-- Lines 152-154: the distance is scaled, converted and written with the
time. -/
def persist (s : State) : State :=
  UpdateNVSData { s with IntDistance := toInt32 (s.Distance * 1000) }

/-- Lines 130-157, the body of the period block (the statistics tick); `t` is
the clock read on line 157. -/
def statsTick (s : State) (t : Nat) : State :=
  let s1 : State := { s with totalWorkTime := wrapInt32 (s.totalWorkTime + 1) }
  let s2 : State := { s1 with lastSpeed1 := s1.SpeedMS }
  let s3 : State := { s2 with SpeedMS := ((s2.RPS : ℚ) * CIRCUMFERENCE + s2.lastSpeed1) / 2 }
  let s4 : State := { s3 with Distance := s3.Distance + s3.SpeedMS / 1000 }
  let s5 : State := { s4 with SpeedKMH := s4.SpeedMS * (36 / 10) }
  let s6 : State := { s5 with AvgSpeed := fdiv s5.Distance ((s5.totalWorkTime : ℚ) / 3600) }
  let s7 := UpdateBuffers s6
  let s8 : State := { s7 with RPS := 0 }
  let s9 := persist s8
  { s9 with periodTime := t }

/-- Lines 129-158. -/
def tickBlock (s : State) (tCheck tSet : Nat) : State :=
  if PeriodElapsed s tCheck then statsTick s tSet else s

/-- Lines 160-166: a change of the raw level of button 1 restarts the
debounce window and the hold timer. -/
def flicker1 (s : State) (tDebounce tHold : Nat) : State :=
  if s.currentState1 ≠ s.lastFlickerableState1 then
    { s with
      lastDebounceTime1 := tDebounce
      holdTime := tHold
      lastFlickerableState1 := s.currentState1 }
  else s

/-- Line 169: the condition under which `ResetData` is called. -/
def LongHold (s : State) (t : Nat) : Prop :=
  s.lastSteadyState1 = 0 ∧ s.currentState1 = 0 ∧ (t : Int) - (s.holdTime : Int) > 2000

instance (s : State) (t : Nat) : Decidable (LongHold s t) := by
  unfold LongHold; infer_instance

/-- Lines 169-171. -/
def holdBlock (s : State) (tCheck tReset : Nat) : State :=
  if LongHold s tCheck then ResetData s tReset else s

/-- Lines 174-175: the condition under which `SwitchDisplayMode` is called. -/
def PressEdge1 (s : State) (t : Nat) : Prop :=
  (t : Int) - (s.lastDebounceTime1 : Int) > 10 ∧ s.lastSteadyState1 = 1 ∧ s.currentState1 = 0

instance (s : State) (t : Nat) : Decidable (PressEdge1 s t) := by
  unfold PressEdge1; infer_instance

/-- Lines 174-179. -/
def accept1 (s : State) (t : Nat) : State :=
  if (t : Int) - (s.lastDebounceTime1 : Int) > 10 then
    let s1 := if s.lastSteadyState1 = 1 ∧ s.currentState1 = 0 then SwitchDisplayMode s else s
    { s1 with lastSteadyState1 := s1.currentState1 }
  else s

/-- Lines 160-179: button 1. -/
def button1Block (s : State) (tDebounce tHold tCheck tReset tAccept : Nat) : State :=
  accept1 (holdBlock (flicker1 s tDebounce tHold) tCheck tReset) tAccept

/-- Lines 181-186: a change of the raw level of button 2 restarts the
debounce window. -/
def flicker2 (s : State) (tDebounce : Nat) : State :=
  if s.currentState2 ≠ s.lastFlickerableState2 then
    { s with
      lastDebounceTime2 := tDebounce
      lastFlickerableState2 := s.currentState2 }
  else s

/-- Lines 189-190: the condition under which `RPS++` runs. -/
def PressEdge2 (s : State) (t : Nat) : Prop :=
  (t : Int) - (s.lastDebounceTime2 : Int) > 10 ∧ s.lastSteadyState2 = 1 ∧ s.currentState2 = 0

instance (s : State) (t : Nat) : Decidable (PressEdge2 s t) := by
  unfold PressEdge2; infer_instance

/-- Lines 189-194. -/
def accept2 (s : State) (t : Nat) : State :=
  if (t : Int) - (s.lastDebounceTime2 : Int) > 10 then
    let s1 : State :=
      if s.lastSteadyState2 = 1 ∧ s.currentState2 = 0 then
        { s with RPS := wrapInt32 (s.RPS + 1) }
      else s
    { s1 with lastSteadyState2 := s1.currentState2 }
  else s

/-- Lines 181-194: button 2. -/
def button2Block (s : State) (tDebounce tAccept : Nat) : State :=
  accept2 (flicker2 s tDebounce) tAccept

/-- Lines 197-199. -/
def renderBlock (s : State) (tCheck tSet : Nat) : State :=
  if (tCheck : Int) - (s.lastRewrite : Int) > 500 then RewriteDisplayData s tSet else s

/-- Lines 124-201: one iteration of the loop. -/
def loopIter (s : State) (i : Input) : State :=
  let s1 : State := { s with currentState1 := i.level1 }
  let s2 : State := { s1 with currentState2 := i.level2 }
  let s3 := tickBlock s2 i.clk.tick i.clk.period
  let s4 := button1Block s3 i.clk.debounce1 i.clk.hold i.clk.holdCheck i.clk.reset i.clk.accept1
  let s5 := button2Block s4 i.clk.debounce2 i.clk.accept2
  renderBlock s5 i.clk.renderCheck i.clk.rewrite

/-- The loop run over a list of inputs. -/
def run (s : State) (is : List Input) : State := is.foldl loopIter s

/-! ## Runs of one button over timed samples -/

/-- A sample of a button: the raw level and the time at which it is taken. -/
abbrev Sample := Int × Nat

/-- Button 2 handles one sample: the level is read (line 126) and lines
181-194 run, both clock reads returning the time of the sample. -/
def sample2 (s : State) (x : Sample) : State :=
  button2Block { s with currentState2 := x.1 } x.2 x.2

/-- Whether button 2 emits a PressEdge at the sample, that is whether `RPS++`
on line 191 runs. -/
def edge2 (s : State) (x : Sample) : Bool :=
  decide (PressEdge2 (flicker2 { s with currentState2 := x.1 } x.2) x.2)

/-- The PressEdge flags of button 2 over a list of samples, one per sample. -/
def edges2 : State → List Sample → List Bool
  | _, [] => []
  | s, x :: xs => edge2 s x :: edges2 (sample2 s x) xs

/-- Button 2 run over a list of samples. -/
def run2 (s : State) (xs : List Sample) : State := xs.foldl sample2 s

/-- The raw level is never seen at 0 by a sample taken more than 10 ms after
the most recent change of the raw level; `prev` is the level of the previous
sample and `tChange` the time of the most recent change before the list. -/
def NoSettledLow (prev : Int) (tChange : Nat) : List Sample → Prop
  | [] => True
  | x :: xs =>
    (x.1 = 0 → (x.2 : Int) - ((if x.1 ≠ prev then x.2 else tChange : Nat) : Int) ≤ 10) ∧
    NoSettledLow x.1 (if x.1 ≠ prev then x.2 else tChange) xs

/-- Button 1 handles one sample: the level is read (line 125) and lines
160-179 run, every clock read returning the time of the sample. -/
def sample1 (s : State) (x : Sample) : State :=
  button1Block { s with currentState1 := x.1 } x.2 x.2 x.2 x.2 x.2

/-- Whether button 1 emits a LongHold at the sample, that is whether
`ResetData` is called on line 170. -/
def hold1 (s : State) (x : Sample) : Bool :=
  decide (LongHold (flicker1 { s with currentState1 := x.1 } x.2 x.2) x.2)

/-- The LongHold flags of button 1 over a list of samples, one per sample. -/
def holds1 : State → List Sample → List Bool
  | _, [] => []
  | s, x :: xs => hold1 s x :: holds1 (sample1 s x) xs

/-- Button 1 run over a list of samples. -/
def run1 (s : State) (xs : List Sample) : State := xs.foldl sample1 s

/-- Whether button 1 emits a PressEdge at the sample, that is whether
`SwitchDisplayMode` is called on line 176. -/
def press1 (s : State) (x : Sample) : Bool :=
  decide (PressEdge1 (holdBlock (flicker1 { s with currentState1 := x.1 } x.2 x.2) x.2 x.2) x.2)

/-- The PressEdge flags of button 1 over a list of samples, one per sample. -/
def presses1 : State → List Sample → List Bool
  | _, [] => []
  | s, x :: xs => press1 s x :: presses1 (sample1 s x) xs

/-- Samples at the pressed level, one for each of the given times. -/
def lowSamples (ts : List Nat) : List Sample := ts.map fun t => (0, t)

/-! ## Runs of the whole loop -/

/-- The clock reads of one iteration do not go backwards: each read is at
least the one before it in program order. -/
def Clock.Ordered (c : Clock) : Prop :=
  c.tick ≤ c.period ∧ c.period ≤ c.debounce1 ∧ c.debounce1 ≤ c.hold ∧ c.hold ≤ c.holdCheck ∧
  c.holdCheck ≤ c.reset ∧ c.reset ≤ c.accept1 ∧ c.accept1 ≤ c.debounce2 ∧
  c.debounce2 ≤ c.accept2 ∧ c.accept2 ≤ c.renderCheck ∧ c.renderCheck ≤ c.rewrite

/-- The clock of an iteration during which the millisecond reading does not
change: every read returns `t`. -/
def Clock.const (t : Nat) : Clock := ⟨t, t, t, t, t, t, t, t, t, t, t⟩

/-- The clock does not go backwards over a list of inputs; `t` is the last
read before the list. -/
def ClockOrdered (t : Nat) : List Input → Prop
  | [] => True
  | i :: is => t ≤ i.clk.tick ∧ i.clk.Ordered ∧ ClockOrdered i.clk.rewrite is

/-- The last clock read of a list of inputs; `t` when the list is empty. -/
def endTime (t : Nat) : List Input → Nat
  | [] => t
  | i :: is => endTime i.clk.rewrite is

/-- Whether `ResetData` is called in the iteration that handles input `i` in
state `s`: the condition of line 169, in the state the iteration has reached
there. -/
def ResetFires (s : State) (i : Input) : Prop :=
  LongHold (flicker1 (tickBlock { s with currentState1 := i.level1, currentState2 := i.level2 }
    i.clk.tick i.clk.period) i.clk.debounce1 i.clk.hold) i.clk.holdCheck

/-- The invariant of the loop behind the monotone distance; `now` is the last
clock read.  The stored times are not in the future, the pulse count and the
speed are not negative, and every pulse counted since `periodTime` took 10 ms:
the next PressEdge of button 2 cannot come before `lastDebounceTime2 + 10`
when the button is armed (accepted level 1, raw level 0), nor before
`now + 10` otherwise. -/
def Inv (s : State) (now : Nat) : Prop :=
  s.periodTime ≤ now ∧ s.lastDebounceTime2 ≤ now ∧ 0 ≤ s.RPS ∧ s.RPS ≤ 102 ∧ 0 ≤ s.SpeedMS ∧
  (s.RPS = 0 ∨ 10 * s.RPS + (s.periodTime : Int) ≤
    if s.lastSteadyState2 = 1 ∧ s.lastFlickerableState2 = 0
    then (s.lastDebounceTime2 : Int) + 10 else (now : Int) + 10)

/-! ## Events and accounts of a run of the loop -/

/-- Whether the statistics tick runs in the iteration that handles input `i`
in state `s`: the condition of line 129, after the two pin reads. -/
def TickRuns (s : State) (i : Input) : Prop :=
  PeriodElapsed { s with currentState1 := i.level1, currentState2 := i.level2 } i.clk.tick

instance (s : State) (i : Input) : Decidable (TickRuns s i) := by
  unfold TickRuns; infer_instance

instance (s : State) (i : Input) : Decidable (ResetFires s i) := by
  unfold ResetFires; infer_instance

/-- Whether `RPS++` runs in the iteration that handles input `i` in state
`s`: the condition of lines 189-190, in the state the iteration has reached
there. -/
def Edge2Fires (s : State) (i : Input) : Prop :=
  PressEdge2 (flicker2 (button1Block (tickBlock
    { s with currentState1 := i.level1, currentState2 := i.level2 } i.clk.tick i.clk.period)
    i.clk.debounce1 i.clk.hold i.clk.holdCheck i.clk.reset i.clk.accept1) i.clk.debounce2)
    i.clk.accept2

instance (s : State) (i : Input) : Decidable (Edge2Fires s i) := by
  unfold Edge2Fires; infer_instance

/-- No statistics tick runs during the list of inputs. -/
def NoTickIn : State → List Input → Prop
  | _, [] => True
  | s, i :: is => ¬ TickRuns s i ∧ NoTickIn (loopIter s i) is

/-- The sum of the pulse counts the statistics ticks of a run consume: each
tick reads `RPS` (line 135) and clears it (line 150). -/
def consumed : State → List Input → Int
  | _, [] => 0
  | s, i :: is => (if TickRuns s i then s.RPS else 0) + consumed (loopIter s i) is

/-- The number of PressEdges button 2 emits during a run. -/
def pressEdges : State → List Input → Int
  | _, [] => 0
  | s, i :: is => (if Edge2Fires s i then 1 else 0) + pressEdges (loopIter s i) is

/-- No counter overflow during a run: whenever `RPS++` runs, the count it
increments is below the largest `int` value. -/
def RPSBelowMax : State → List Input → Prop
  | _, [] => True
  | s, i :: is =>
    (Edge2Fires s i →
      (tickBlock { s with currentState1 := i.level1, currentState2 := i.level2 }
        i.clk.tick i.clk.period).RPS < 2147483647) ∧
    RPSBelowMax (loopIter s i) is

/-- The statistics, the persisted values and the display strings of a state:
what an iteration without tick and without reset leaves alone. -/
structure Ride where
  Distance : ℚ
  totalWorkTime : Int
  SpeedMS : ℚ
  SpeedKMH : ℚ
  AvgSpeed : Option ℚ
  lastSpeed1 : ℚ
  periodTime : Nat
  IntDistance : Int
  nvs : Store
  SpdBuffer : Text
  SpdBufferAll : Text
  AvgBuffer : Text
  AvgBufferAll : Text
  DistBuffer : Text
  DistBufferAll : Text
  TimeBufferAll : Text

/-- The `Ride` part of a state. -/
def State.ride (s : State) : Ride :=
  { Distance := s.Distance, totalWorkTime := s.totalWorkTime, SpeedMS := s.SpeedMS,
    SpeedKMH := s.SpeedKMH, AvgSpeed := s.AvgSpeed, lastSpeed1 := s.lastSpeed1,
    periodTime := s.periodTime, IntDistance := s.IntDistance, nvs := s.nvs,
    SpdBuffer := s.SpdBuffer, SpdBufferAll := s.SpdBufferAll, AvgBuffer := s.AvgBuffer,
    AvgBufferAll := s.AvgBufferAll, DistBuffer := s.DistBuffer,
    DistBufferAll := s.DistBufferAll, TimeBufferAll := s.TimeBufferAll }

/-- A sequence of statistics ticks without reset in between: before each tick
the pulse counter holds the given count; the second component is the clock
read of the tick (line 157). -/
def tickSeq : State → List (Int × Nat) → State
  | s, [] => s
  | s, p :: ps => tickSeq (statsTick { s with RPS := p.1 } p.2) ps

/-- Ticks with a pulse count of zero, one for each of the given clock reads. -/
def zeroTicks (ts : List Nat) : List (Int × Nat) := ts.map fun t => (0, t)

/-! ## The clock reads as the ESP32 stores them -/

/-- The conversion of a clock read to `unsigned long` where that type has 32
bits: the assignments of lines 121, 157, 161, 162, 182, 296, 314, 321, 328 and
335 store the read modulo 2^32. -/
def toULong (t : Nat) : Nat := t % 4294967296

/-- The clock reads of an iteration with every read that is assigned to an
`unsigned long` variable converted; the reads that are only compared are
left as they are. -/
def Clock.stored (c : Clock) : Clock :=
  { c with
    period := toULong c.period
    debounce1 := toULong c.debounce1
    hold := toULong c.hold
    reset := toULong c.reset
    debounce2 := toULong c.debounce2
    rewrite := toULong c.rewrite }

/-- An input with the stored clock reads converted. -/
def Input.stored (i : Input) : Input := { i with clk := i.clk.stored }

/-- One iteration of the loop on the ESP32. -/
def loopIterULong (s : State) (i : Input) : State := loopIter s i.stored

/-- The loop on the ESP32 run over a list of inputs. -/
def runULong (s : State) (is : List Input) : State := run s (is.map Input.stored)

/-- Button 2 handles one sample on the ESP32: as `sample2`, with the read
stored on line 182 converted. -/
def sample2ULong (s : State) (x : Sample) : State :=
  button2Block { s with currentState2 := x.1 } (toULong x.2) x.2

/-- Whether button 2 emits a PressEdge at the sample on the ESP32. -/
def edge2ULong (s : State) (x : Sample) : Bool :=
  decide (PressEdge2 (flicker2 { s with currentState2 := x.1 } (toULong x.2)) x.2)

/-- The PressEdge flags of button 2 on the ESP32, one per sample. -/
def edges2ULong : State → List Sample → List Bool
  | _, [] => []
  | s, x :: xs => edge2ULong s x :: edges2ULong (sample2ULong s x) xs

/-- Button 2 on the ESP32 run over a list of samples. -/
def run2ULong (s : State) (xs : List Sample) : State := xs.foldl sample2ULong s

/-- Button 1 handles one sample on the ESP32: as `sample1`, with the reads
stored on lines 161, 162 and 296 converted. -/
def sample1ULong (s : State) (x : Sample) : State :=
  button1Block { s with currentState1 := x.1 } (toULong x.2) (toULong x.2) x.2 (toULong x.2)
    x.2

/-- Whether button 1 emits a LongHold at the sample on the ESP32. -/
def hold1ULong (s : State) (x : Sample) : Bool :=
  decide (LongHold (flicker1 { s with currentState1 := x.1 } (toULong x.2) (toULong x.2)) x.2)

/-- The LongHold flags of button 1 on the ESP32, one per sample. -/
def holds1ULong : State → List Sample → List Bool
  | _, [] => []
  | s, x :: xs => hold1ULong s x :: holds1ULong (sample1ULong s x) xs

/-- Whether button 1 emits a PressEdge at the sample on the ESP32. -/
def press1ULong (s : State) (x : Sample) : Bool :=
  decide (PressEdge1 (holdBlock (flicker1 { s with currentState1 := x.1 } (toULong x.2)
    (toULong x.2)) x.2 (toULong x.2)) x.2)

/-- The PressEdge flags of button 1 on the ESP32, one per sample. -/
def presses1ULong : State → List Sample → List Bool
  | _, [] => []
  | s, x :: xs => press1ULong s x :: presses1ULong (sample1ULong s x) xs

/-- No statistics tick runs during the list of inputs on the ESP32. -/
def NoTickInULong (s : State) (is : List Input) : Prop := NoTickIn s (is.map Input.stored)

/-! ## The `double` arithmetic of the stored distance -/

/-- The integer nearest to `y`, the even one of the two when `y` is halfway
between them. -/
def roundEven (y : ℚ) : Int :=
  if y - ⌊y⌋ < 1 / 2 then ⌊y⌋
  else if 1 / 2 < y - ⌊y⌋ then ⌊y⌋ + 1
  else if ⌊y⌋ % 2 = 0 then ⌊y⌋ else ⌊y⌋ + 1

/-- The exponent of the unit in the last place of the binary64 format at `x`:
53 significant bits, and no exponent below -1022 (the subnormal numbers). -/
def ulpExp (x : ℚ) : Int := max (Int.log 2 |x|) (-1022) - 52

/-- The binary64 value of the real result `x` of an operation: the nearest
multiple of the unit in the last place, ties to even (the default rounding of
the C `double` arithmetic).  The overflow to an infinity, from 2^1024 on, is
not modelled. -/
def fl64 (x : ℚ) : ℚ := (roundEven (x / 2 ^ ulpExp x) : ℚ) * 2 ^ ulpExp x

/-- Lines 152-154 with the product of line 153 rounded to a `double` before
the conversion. -/
def persist64 (s : State) : State :=
  UpdateNVSData { s with IntDistance := toInt32 (fl64 (s.Distance * 1000)) }

/-- Lines 96-121 on the ESP32: the quotient of line 107 is rounded to a
`double`, and the clock read `t` of line 121 is converted to the 32 bits of
`periodTime`. -/
def startup64 (nvs : Store) (t : Nat) : State :=
  let s0 : State := { initial nvs with totalWorkTime := 0 }
  let s1 := NVS s0
  let s2 : State := { s1 with Distance := fl64 ((s1.IntDistance : ℚ) / 1000) }
  let s3 : State := { s2 with dev := s2.dev ++ [DrawCmd.clear, DrawCmd.contrast 255,
    DrawCmd.text 2 (Text.lit "IMP - Tachometer") 17,
    DrawCmd.text 5 (Text.lit "Author: xbelov04") 17] }
  { s3 with periodTime := toULong t }

/-! ## Theorems -/

theorem wrapInt32_of_range (x : Int) (h0 : -2147483648 ≤ x) (h1 : x < 2147483648) :
    wrapInt32 x = x := by
  unfold wrapInt32
  omega

/-- C1. Statistics tick postcondition: with `s.RPS` the pulse count, `s.SpeedMS`
the previous smoothed speed, `s.Distance` the distance and `s.totalWorkTime`
the elapsed time (a count of seconds below the `int32_t` maximum), the tick
yields `SpeedMS = (RPS * 2.07 + previous) / 2`, `Distance = old + SpeedMS / 1000`,
`SpeedKMH = SpeedMS * 3.6`, elapsed time `+ 1`,
`AvgSpeed = Distance / (elapsed / 3600)` and pulse count 0; from distance 0,
time 0, speed 0 and 5 pulses the values are 5.175, 0.005175, 18.63, 1 and
18.63. -/
theorem statsTick_postcondition (s : State) (t : Nat)
    (h0 : 0 ≤ s.totalWorkTime) (h1 : s.totalWorkTime < 2147483647) :
    (statsTick s t).SpeedMS = ((s.RPS : ℚ) * (207 / 100) + s.SpeedMS) / 2 ∧
    (statsTick s t).Distance = s.Distance + (statsTick s t).SpeedMS / 1000 ∧
    (statsTick s t).SpeedKMH = (statsTick s t).SpeedMS * (36 / 10) ∧
    (statsTick s t).totalWorkTime = s.totalWorkTime + 1 ∧
    (statsTick s t).AvgSpeed =
      some ((statsTick s t).Distance / (((statsTick s t).totalWorkTime : ℚ) / 3600)) ∧
    (statsTick s t).RPS = 0 ∧
    (s.Distance = 0 → s.totalWorkTime = 0 → s.SpeedMS = 0 → s.RPS = 5 →
      (statsTick s t).SpeedMS = 5175 / 1000 ∧
      (statsTick s t).Distance = 5175 / 1000000 ∧
      (statsTick s t).SpeedKMH = 1863 / 100 ∧
      (statsTick s t).totalWorkTime = 1 ∧
      (statsTick s t).AvgSpeed = some (1863 / 100)) := by
  have hw : wrapInt32 (s.totalWorkTime + 1) = s.totalWorkTime + 1 :=
    wrapInt32_of_range _ (by omega) (by omega)
  have hne : ((s.totalWorkTime + 1 : Int) : ℚ) / 3600 ≠ 0 := by
    have hpos : 0 < s.totalWorkTime + 1 := by omega
    have : (0 : ℚ) < ((s.totalWorkTime + 1 : Int) : ℚ) := by exact_mod_cast hpos
    positivity
  refine ⟨?_, ?_, ?_, ?_, ?_, ?_, ?_⟩
  · simp [statsTick, persist, UpdateNVSData, UpdateBuffers, CIRCUMFERENCE]
  · simp [statsTick, persist, UpdateNVSData, UpdateBuffers, CIRCUMFERENCE]
  · simp [statsTick, persist, UpdateNVSData, UpdateBuffers, CIRCUMFERENCE]
  · simp [statsTick, persist, UpdateNVSData, UpdateBuffers, hw]
  · simp only [statsTick, persist, UpdateNVSData, UpdateBuffers, hw, fdiv, if_neg hne]
  · simp [statsTick, persist, UpdateNVSData, UpdateBuffers]
  · intro hd ht hs hp
    have hne1 : ((1 : Int) : ℚ) / 3600 ≠ 0 := by norm_num
    refine ⟨?_, ?_, ?_, ?_, ?_⟩
    · simp [statsTick, persist, UpdateNVSData, UpdateBuffers, CIRCUMFERENCE, hs, hp]; norm_num
    · simp [statsTick, persist, UpdateNVSData, UpdateBuffers, CIRCUMFERENCE, hs, hp, hd]; norm_num
    · simp [statsTick, persist, UpdateNVSData, UpdateBuffers, CIRCUMFERENCE, hs, hp]; norm_num
    · simp [statsTick, persist, UpdateNVSData, UpdateBuffers, ht]
      decide
    · simp only [statsTick, persist, UpdateNVSData, UpdateBuffers, hw, fdiv, if_neg hne]
      simp [CIRCUMFERENCE, hs, hp, hd, ht]; norm_num

theorem statsTick_postcondition_witness :
    (statsTick { initial ⟨none, none⟩ with RPS := 5 } 4001).SpeedMS = 5175 / 1000 ∧
    (statsTick { initial ⟨none, none⟩ with RPS := 5 } 4001).AvgSpeed = some (1863 / 100) := by
  have h := statsTick_postcondition { initial ⟨none, none⟩ with RPS := 5 } 4001
    (by decide) (by decide)
  exact ⟨(h.2.2.2.2.2.2 rfl rfl rfl rfl).1, (h.2.2.2.2.2.2 rfl rfl rfl rfl).2.2.2.2⟩

/-- C6. Display-mode cycle: `SwitchDisplayMode` maps All to Speed, Speed to
Distance, Distance to AvgSpeed and AvgSpeed to All; from each of the four
modes the result is one of the four, four advances restore the state, and one,
two or three advances leave a different mode. -/
theorem switchDisplayMode_cycle (s : State)
    (h : s.ScreenMode = ALL ∨ s.ScreenMode = SPEED ∨ s.ScreenMode = DIST ∨
      s.ScreenMode = AVGSPEED) :
    (s.ScreenMode = ALL → (SwitchDisplayMode s).ScreenMode = SPEED) ∧
    (s.ScreenMode = SPEED → (SwitchDisplayMode s).ScreenMode = DIST) ∧
    (s.ScreenMode = DIST → (SwitchDisplayMode s).ScreenMode = AVGSPEED) ∧
    (s.ScreenMode = AVGSPEED → (SwitchDisplayMode s).ScreenMode = ALL) ∧
    ((SwitchDisplayMode s).ScreenMode = ALL ∨ (SwitchDisplayMode s).ScreenMode = SPEED ∨
      (SwitchDisplayMode s).ScreenMode = DIST ∨ (SwitchDisplayMode s).ScreenMode = AVGSPEED) ∧
    SwitchDisplayMode (SwitchDisplayMode (SwitchDisplayMode (SwitchDisplayMode s))) = s ∧
    (SwitchDisplayMode s).ScreenMode ≠ s.ScreenMode ∧
    (SwitchDisplayMode (SwitchDisplayMode s)).ScreenMode ≠ s.ScreenMode ∧
    (SwitchDisplayMode (SwitchDisplayMode (SwitchDisplayMode s))).ScreenMode ≠ s.ScreenMode := by
  obtain ⟨l1, f1, c1, d1, h1, l2, f2, c2, d2, v, k, a, d, r, ls, p, w, b1, b2, b3, b4, b5, b6,
    b7, i, m, lr, n, dv⟩ := s
  simp only at h
  rcases h with h | h | h | h <;> subst h <;>
    simp [SwitchDisplayMode, ALL, SPEED, DIST, AVGSPEED]

theorem switchDisplayMode_cycle_witness :
    SwitchDisplayMode (SwitchDisplayMode (SwitchDisplayMode (SwitchDisplayMode
      (initial ⟨none, none⟩)))) = initial ⟨none, none⟩ ∧
    (SwitchDisplayMode (initial ⟨none, none⟩)).ScreenMode = SPEED :=
  ⟨(switchDisplayMode_cycle (initial ⟨none, none⟩) (Or.inl rfl)).2.2.2.2.2.1,
    (switchDisplayMode_cycle (initial ⟨none, none⟩) (Or.inl rfl)).1 rfl⟩

/-- C7. Reset postcondition: after `ResetData`, from any state, distance,
elapsed time, speed in m/s, speed in km/h, average speed and the previous-speed
sample are 0 and the display mode is All. -/
theorem resetData_postcondition (s : State) (t : Nat) :
    (ResetData s t).Distance = 0 ∧ (ResetData s t).totalWorkTime = 0 ∧
    (ResetData s t).SpeedMS = 0 ∧ (ResetData s t).SpeedKMH = 0 ∧
    (ResetData s t).AvgSpeed = some 0 ∧ (ResetData s t).lastSpeed1 = 0 ∧
    (ResetData s t).ScreenMode = ALL := by
  simp [ResetData]

theorem toInt32_zero : toInt32 0 = 0 := by
  simp [toInt32]

theorem toInt32_example : toInt32 (3105 / 1000) = 3 := by
  have h : ⌊(3105 / 1000 : ℚ)⌋ = 3 := by
    rw [Int.floor_eq_iff]; norm_num
  have h0 : (0 : ℚ) ≤ 3105 / 1000 := by norm_num
  simp only [toInt32, if_pos h0, h]
  decide

/-- C8, as the claim states it, fails: the tick that follows a reset writes
the time 1, not 0; and with 3 pulses pending at the reset, which `ResetData`
does not clear, it writes the distance 3. -/
theorem persisted_after_reset_counterexample :
    (statsTick (ResetData (initial ⟨none, none⟩) 3000) 4001).nvs =
      { Distance := some 0, Time := some 1 } ∧
    (statsTick (ResetData { initial ⟨none, none⟩ with RPS := 3 } 3000) 4001).nvs =
      { Distance := some 3, Time := some 1 } := by
  have h1 : wrapInt32 1 = 1 := by decide
  have e : ((3 : ℚ) * (207 / 100) / 2) = 3105 / 1000 := by norm_num
  constructor
  · simp [statsTick, persist, UpdateNVSData, UpdateBuffers, ResetData, initial, h1,
      toInt32_zero]
  · simp [statsTick, persist, UpdateNVSData, UpdateBuffers, ResetData, initial, h1,
      CIRCUMFERENCE]
    rw [e, toInt32_example]

/-- C8, amended. Persisted state after reset: when a reset is applied to a
state whose pulse count is 0 and the next statistics tick then runs, the pair
(Distance, Time) that tick writes to the store is (0, 1): the tick counts its
own second before it writes. -/
theorem persisted_after_reset (s : State) (tReset tTick : Nat) (hp : s.RPS = 0) :
    (statsTick (ResetData s tReset) tTick).nvs = { Distance := some 0, Time := some 1 } := by
  have h1 : wrapInt32 1 = 1 := by decide
  simp [statsTick, persist, UpdateNVSData, UpdateBuffers, ResetData, hp, toInt32_zero, h1]

theorem persisted_after_reset_witness :
    (statsTick (ResetData { initial ⟨some 12345, some 77⟩ with Distance := 12, totalWorkTime := 77 }
      3000) 4001).nvs = { Distance := some 0, Time := some 1 } :=
  persisted_after_reset _ 3000 4001 rfl

theorem toInt32_of_nonneg (x : ℚ) (h0 : 0 ≤ x) (h1 : x < 2147483648) : toInt32 x = ⌊x⌋ := by
  have hf0 : 0 ≤ ⌊x⌋ := Int.floor_nonneg.mpr h0
  have hf1 : ⌊x⌋ < 2147483648 := by
    have : (⌊x⌋ : ℚ) < 2147483648 := lt_of_le_of_lt (Int.floor_le x) h1
    exact_mod_cast this
  simp only [toInt32, if_pos h0]
  rw [if_pos ⟨by omega, by omega⟩]

theorem startup_persist (s : State) (t : Nat) :
    (startup (persist s).nvs t).totalWorkTime = s.totalWorkTime ∧
    (startup (persist s).nvs t).Distance = (toInt32 (s.Distance * 1000) : ℚ) / 1000 := by
  simp [startup, NVS, persist, UpdateNVSData, initial]

/-- The round trip through the store in exact arithmetic, without the rounding
of the product and of the quotient: the reloaded distance `d'` has
`d' ≤ d < d' + 1/1000`, and `d' = d` when `d` is a multiple of 1/1000. -/
theorem persist_exact_roundtrip (s : State) (t : Nat)
    (h0 : 0 ≤ s.Distance * 1000) (h1 : s.Distance * 1000 < 2147483648) :
    (startup (persist s).nvs t).totalWorkTime = s.totalWorkTime ∧
    (startup (persist s).nvs t).Distance ≤ s.Distance ∧
    s.Distance < (startup (persist s).nvs t).Distance + 1 / 1000 ∧
    (∀ n : Int, s.Distance = (n : ℚ) / 1000 → (startup (persist s).nvs t).Distance = s.Distance) ∧
    (s.Distance = 12345 / 1000 → (persist s).nvs.Distance = some 12345 ∧
      (startup (persist s).nvs t).Distance = 12345 / 1000) := by
  obtain ⟨ht, hd⟩ := startup_persist s t
  have hfl := toInt32_of_nonneg _ h0 h1
  rw [hfl] at hd
  have hle : ((⌊s.Distance * 1000⌋ : Int) : ℚ) ≤ s.Distance * 1000 := Int.floor_le _
  have hlt : s.Distance * 1000 < ((⌊s.Distance * 1000⌋ : Int) : ℚ) + 1 := Int.lt_floor_add_one _
  have hmul : ∀ n : Int, s.Distance = (n : ℚ) / 1000 →
      (startup (persist s).nvs t).Distance = s.Distance := by
    intro n hn
    have h2 : s.Distance * 1000 = (n : ℚ) := by rw [hn]; field_simp
    rw [hd, h2, Int.floor_intCast, hn]
  refine ⟨ht, ?_, ?_, hmul, ?_⟩
  · rw [hd]; linarith
  · rw [hd]; linarith
  · intro h
    have h2 : s.Distance * 1000 = ((12345 : Int) : ℚ) := by rw [h]; norm_num
    refine ⟨?_, ?_⟩
    · have e : (persist s).nvs.Distance = some (toInt32 (s.Distance * 1000)) := by
        simp [persist, UpdateNVSData]
      rw [e, hfl, h2, Int.floor_intCast]
    · have := hmul 12345 (by rw [h]; norm_num)
      rw [this, h]

/-! ### Button 2: debounce -/

theorem sample2_flick (s : State) (x : Sample) :
    (sample2 s x).lastFlickerableState2 = x.1 := by
  simp only [sample2, button2Block, accept2, flicker2]
  split_ifs <;> simp_all

theorem sample2_debounce (s : State) (x : Sample) :
    (sample2 s x).lastDebounceTime2 =
      if x.1 ≠ s.lastFlickerableState2 then x.2 else s.lastDebounceTime2 := by
  simp only [sample2, button2Block, accept2, flicker2]
  split_ifs <;> simp_all

theorem sample2_steady (s : State) (x : Sample) :
    (sample2 s x).lastSteadyState2 =
      if (x.2 : Int) - ((sample2 s x).lastDebounceTime2 : Int) > 10 then x.1
      else s.lastSteadyState2 := by
  simp only [sample2, button2Block, accept2, flicker2]
  split_ifs <;> simp_all

theorem edge2_iff (s : State) (x : Sample) :
    edge2 s x = true ↔
      (x.2 : Int) - ((sample2 s x).lastDebounceTime2 : Int) > 10 ∧
        s.lastSteadyState2 = 1 ∧ x.1 = 0 := by
  simp only [edge2, PressEdge2, sample2, button2Block, accept2, flicker2, decide_eq_true_eq]
  split_ifs <;> simp_all

theorem run2_nil (s : State) : run2 s [] = s := rfl

theorem run2_cons (s : State) (x : Sample) (xs : List Sample) :
    run2 s (x :: xs) = run2 (sample2 s x) xs := rfl

theorem run2_append (s : State) (xs ys : List Sample) :
    run2 s (xs ++ ys) = run2 (run2 s xs) ys := by
  simp [run2, List.foldl_append]

theorem edges2_append (s : State) (xs ys : List Sample) :
    edges2 s (xs ++ ys) = edges2 s xs ++ edges2 (run2 s xs) ys := by
  induction xs generalizing s with
  | nil => rfl
  | cons x xs ih => simp [edges2, run2_cons, ih]

theorem edges2_getElem? (s : State) (xs : List Sample) (k : Nat) (b : Bool)
    (h : (edges2 s xs)[k]? = some b) :
    ∃ x, xs[k]? = some x ∧ edge2 (run2 s (xs.take k)) x = b := by
  induction xs generalizing s k with
  | nil => simp [edges2] at h
  | cons y ys ih =>
    cases k with
    | zero =>
      simp only [edges2, List.getElem?_cons_zero, Option.some.injEq] at h
      exact ⟨y, by simp, by simpa [run2_nil] using h⟩
    | succ k =>
      simp only [edges2, List.getElem?_cons_succ] at h
      obtain ⟨x, hx, hb⟩ := ih (sample2 s y) k h
      exact ⟨x, by simpa using hx, by simpa [run2_cons] using hb⟩

theorem run2_flick_concat (s : State) (xs : List Sample) (x : Sample) :
    (run2 s (xs ++ [x])).lastFlickerableState2 = x.1 := by
  rw [run2_append, run2_cons, run2_nil, sample2_flick]

/-- Noise keeps button 2 quiet: no PressEdge, and the three debounce variables
follow the samples. -/
theorem noise_quiet (xs : List Sample) (s : State) (prev : Int) (tc : Nat)
    (hs : s.lastSteadyState2 = 1) (hf : s.lastFlickerableState2 = prev)
    (hd : s.lastDebounceTime2 = tc) (hl : ∀ x ∈ xs, x.1 = 0 ∨ x.1 = 1)
    (hn : NoSettledLow prev tc xs) :
    edges2 s xs = List.replicate xs.length false ∧
      ∀ k, (run2 s (xs.take k)).lastSteadyState2 = 1 := by
  induction xs generalizing s prev tc with
  | nil => simp [edges2, run2_nil, hs]
  | cons x xs ih =>
    obtain ⟨hx, hrest⟩ := hn
    have hdeb : (sample2 s x).lastDebounceTime2 = if x.1 ≠ prev then x.2 else tc := by
      rw [sample2_debounce, hf, hd]
    have hst : (sample2 s x).lastSteadyState2 = 1 := by
      rw [sample2_steady, hdeb]
      by_cases hc : x.1 ≠ prev
      · rw [if_pos hc, if_neg (by omega)]; exact hs
      · rw [if_neg hc]
        split_ifs with h2
        · rcases hl x (List.mem_cons_self _ _) with h0 | h0
          · have := hx h0; rw [if_neg hc] at this; omega
          · exact h0
        · exact hs
    have hedge : edge2 s x = false := by
      rw [Bool.eq_false_iff]
      intro he
      obtain ⟨h1, -, h0⟩ := (edge2_iff s x).mp he
      rw [hdeb] at h1
      have := hx h0
      omega
    obtain ⟨ih1, ih2⟩ := ih (sample2 s x) x.1 _ hst (sample2_flick s x) hdeb
      (fun y hy => hl y (List.mem_cons_of_mem _ hy)) hrest
    refine ⟨by simp [edges2, hedge, ih1, List.replicate_succ], fun k => ?_⟩
    cases k with
    | zero => simpa [run2_nil] using hs
    | succ k => simpa [run2_cons] using ih2 k

/-- While the accepted level is 1 and the raw level stays 0 inside the
debounce window, nothing happens. -/
theorem window_quiet (xs : List Sample) (s : State) (tc : Nat)
    (hs : s.lastSteadyState2 = 1) (hf : s.lastFlickerableState2 = 0)
    (hd : s.lastDebounceTime2 = tc) (hx : ∀ x ∈ xs, x.1 = 0 ∧ x.2 ≤ tc + 10) :
    edges2 s xs = List.replicate xs.length false ∧
      (run2 s xs).lastSteadyState2 = 1 ∧ (run2 s xs).lastFlickerableState2 = 0 ∧
      (run2 s xs).lastDebounceTime2 = tc := by
  induction xs generalizing s with
  | nil => simp [edges2, run2_nil, hs, hf, hd]
  | cons x xs ih =>
    obtain ⟨h0, ht⟩ := hx x (List.mem_cons_self _ _)
    have hdeb : (sample2 s x).lastDebounceTime2 = tc := by
      rw [sample2_debounce, hf, hd, h0]; simp
    have hst : (sample2 s x).lastSteadyState2 = 1 := by
      rw [sample2_steady, hdeb, if_neg (by omega)]; exact hs
    have hedge : edge2 s x = false := by
      rw [Bool.eq_false_iff]
      intro he
      obtain ⟨h1, -, -⟩ := (edge2_iff s x).mp he
      rw [hdeb] at h1
      omega
    obtain ⟨ih1, ih2⟩ := ih (sample2 s x) hst (by rw [sample2_flick, h0]) hdeb
      (fun y hy => hx y (List.mem_cons_of_mem _ hy))
    exact ⟨by simp [edges2, hedge, ih1, List.replicate_succ], by simpa [run2_cons] using ih2⟩

/-- Once the pressed level is accepted, further samples at 0 emit nothing. -/
theorem pressed_quiet (xs : List Sample) (s : State)
    (hs : s.lastSteadyState2 = 0) (hx : ∀ x ∈ xs, x.1 = 0) :
    edges2 s xs = List.replicate xs.length false := by
  induction xs generalizing s with
  | nil => simp [edges2]
  | cons x xs ih =>
    have h0 := hx x (List.mem_cons_self _ _)
    have hst : (sample2 s x).lastSteadyState2 = 0 := by
      rw [sample2_steady]; split_ifs
      · exact h0
      · exact hs
    have hedge : edge2 s x = false := by
      rw [Bool.eq_false_iff]
      intro he
      obtain ⟨-, h1, -⟩ := (edge2_iff s x).mp he
      omega
    simp [edges2, hedge, ih (sample2 s x) hst (fun y hy => hx y (List.mem_cons_of_mem _ hy)),
      List.replicate_succ]

theorem edges2_clean_press (s : State) (noise pre post : List Sample) (tc tstar : Nat)
    (hs : s.lastSteadyState2 = 1) (hf : s.lastFlickerableState2 = 1)
    (hl : ∀ x ∈ noise, x.1 = 0 ∨ x.1 = 1)
    (hn : NoSettledLow 1 s.lastDebounceTime2 noise)
    (hlast : ∀ x ∈ noise.getLast?, x.1 = 1)
    (hpre : ∀ x ∈ pre, x.1 = 0 ∧ x.2 ≤ tc + 10)
    (hstar : tc + 10 < tstar)
    (hpost : ∀ x ∈ post, x.1 = 0) :
    edges2 s (noise ++ (0, tc) :: (pre ++ (0, tstar) :: post)) =
      List.replicate (noise.length + 1 + pre.length) false ++
        true :: List.replicate post.length false := by
  obtain ⟨hn1, hn2⟩ := noise_quiet noise s 1 _ hs hf rfl hl hn
  -- the state after the noise
  have hs1 : (run2 s noise).lastSteadyState2 = 1 := by
    simpa using hn2 noise.length
  have hf1 : (run2 s noise).lastFlickerableState2 = 1 := by
    rcases List.eq_nil_or_concat noise with h | ⟨L, b, h⟩
    · subst h; simpa [run2_nil] using hf
    · rw [List.concat_eq_append] at h
      subst h
      rw [run2_flick_concat]
      exact hlast b (by simp)
  -- the sample that changes the level to 0
  set s1 := run2 s noise with hs1def
  have hd2 : (sample2 s1 (0, tc)).lastDebounceTime2 = tc := by
    rw [sample2_debounce, hf1]; simp
  have hs2 : (sample2 s1 (0, tc)).lastSteadyState2 = 1 := by
    rw [sample2_steady, hd2, if_neg (by omega)]; exact hs1
  have hf2 : (sample2 s1 (0, tc)).lastFlickerableState2 = 0 := sample2_flick _ _
  have he2 : edge2 s1 (0, tc) = false := by
    rw [Bool.eq_false_iff]
    intro he
    obtain ⟨h1, -, -⟩ := (edge2_iff _ _).mp he
    rw [hd2] at h1
    simp at h1
  -- the samples inside the window
  obtain ⟨hw1, hw2, hw3, hw4⟩ := window_quiet pre _ tc hs2 hf2 hd2 hpre
  set s2 := run2 (sample2 s1 (0, tc)) pre with hs2def
  -- the first sample after the window
  have hd3 : (sample2 s2 (0, tstar)).lastDebounceTime2 = tc := by
    rw [sample2_debounce, hw3, hw4]; simp
  have he3 : edge2 s2 (0, tstar) = true := by
    rw [edge2_iff, hd3]
    exact ⟨by simp only []; omega, hw2, rfl⟩
  have hs3 : (sample2 s2 (0, tstar)).lastSteadyState2 = 0 := by
    rw [sample2_steady, hd3, if_pos (by simp only []; omega)]
  have hp := pressed_quiet post _ hs3 hpost
  rw [edges2_append, hn1, edges2, he2, edges2_append, hw1, edges2, he3, hp]
  simp only [List.replicate_add, List.replicate_one, List.append_assoc, List.singleton_append,
    List.cons_append, List.nil_append]

/-! ### The blocks of the two buttons in closed form -/

theorem flicker1_eq (s : State) (a b : Nat) :
    flicker1 s a b =
      { s with
        lastDebounceTime1 :=
          if s.currentState1 ≠ s.lastFlickerableState1 then a else s.lastDebounceTime1
        holdTime := if s.currentState1 ≠ s.lastFlickerableState1 then b else s.holdTime
        lastFlickerableState1 := s.currentState1 } := by
  unfold flicker1
  split_ifs with h
  · rfl
  · cases s; simp_all

theorem holdBlock_eq (s : State) (a b : Nat) :
    holdBlock s a b =
      { s with
        holdTime := if LongHold s a then b else s.holdTime
        Distance := if LongHold s a then 0 else s.Distance
        totalWorkTime := if LongHold s a then 0 else s.totalWorkTime
        AvgSpeed := if LongHold s a then some 0 else s.AvgSpeed
        SpeedMS := if LongHold s a then 0 else s.SpeedMS
        SpeedKMH := if LongHold s a then 0 else s.SpeedKMH
        lastSpeed1 := if LongHold s a then 0 else s.lastSpeed1
        ScreenMode := if LongHold s a then ALL else s.ScreenMode } := by
  unfold holdBlock ResetData
  split_ifs with h <;> rfl

theorem accept1_eq (s : State) (t : Nat) :
    accept1 s t =
      { s with
        ScreenMode := if PressEdge1 s t then (SwitchDisplayMode s).ScreenMode else s.ScreenMode
        lastSteadyState1 :=
          if (t : Int) - (s.lastDebounceTime1 : Int) > 10 then s.currentState1
          else s.lastSteadyState1 } := by
  unfold accept1 PressEdge1 SwitchDisplayMode
  split_ifs <;> first | rfl | (exfalso; tauto)

theorem flicker2_eq (s : State) (a : Nat) :
    flicker2 s a =
      { s with
        lastDebounceTime2 :=
          if s.currentState2 ≠ s.lastFlickerableState2 then a else s.lastDebounceTime2
        lastFlickerableState2 := s.currentState2 } := by
  unfold flicker2
  split_ifs with h
  · rfl
  · cases s; simp_all

theorem accept2_eq (s : State) (t : Nat) :
    accept2 s t =
      { s with
        RPS := if PressEdge2 s t then wrapInt32 (s.RPS + 1) else s.RPS
        lastSteadyState2 :=
          if (t : Int) - (s.lastDebounceTime2 : Int) > 10 then s.currentState2
          else s.lastSteadyState2 } := by
  unfold accept2 PressEdge2
  split_ifs <;> first | rfl | (exfalso; tauto)

/-! ### Button 1: long hold -/

theorem sample1_flick (s : State) (x : Sample) :
    (sample1 s x).lastFlickerableState1 = x.1 := by
  simp only [sample1, button1Block, accept1_eq, holdBlock_eq, flicker1_eq]

theorem sample1_debounce (s : State) (x : Sample) :
    (sample1 s x).lastDebounceTime1 =
      if x.1 ≠ s.lastFlickerableState1 then x.2 else s.lastDebounceTime1 := by
  simp only [sample1, button1Block, accept1_eq, holdBlock_eq, flicker1_eq]

theorem sample1_steady (s : State) (x : Sample) :
    (sample1 s x).lastSteadyState1 =
      if (x.2 : Int) - ((sample1 s x).lastDebounceTime1 : Int) > 10 then x.1
      else s.lastSteadyState1 := by
  simp only [sample1, button1Block, accept1_eq, holdBlock_eq, flicker1_eq]

theorem hold1_iff (s : State) (x : Sample) :
    hold1 s x = true ↔
      s.lastSteadyState1 = 0 ∧ x.1 = 0 ∧
        (x.2 : Int) - ((if x.1 ≠ s.lastFlickerableState1 then x.2 else s.holdTime : Nat) : Int)
          > 2000 := by
  simp only [hold1, LongHold, flicker1_eq, decide_eq_true_eq]

theorem sample1_holdTime (s : State) (x : Sample) :
    (sample1 s x).holdTime =
      if hold1 s x = true then x.2
      else if x.1 ≠ s.lastFlickerableState1 then x.2 else s.holdTime := by
  simp only [sample1, button1Block, accept1_eq, holdBlock_eq, flicker1_eq, hold1,
    decide_eq_true_eq]

theorem holds1_cons (s : State) (x : Sample) (xs : List Sample) :
    holds1 s (x :: xs) = hold1 s x :: holds1 (sample1 s x) xs := rfl

theorem lowSamples_cons (t : Nat) (ts : List Nat) :
    lowSamples (t :: ts) = (0, t) :: lowSamples ts := rfl

/-- Every LongHold moves `holdTime` forward by more than 2000 ms, so the
LongHolds of a hold fit into its duration. -/
theorem holds1_bound (ts : List Nat) (s : State) (tprev : Nat)
    (hf : s.lastFlickerableState1 = 0) (hh : s.holdTime ≤ tprev)
    (hc : List.Chain (· ≤ ·) tprev ts) :
    s.holdTime + 2001 * (holds1 s (lowSamples ts)).count true ≤ ts.getLastD tprev := by
  induction ts generalizing s tprev with
  | nil => simpa [lowSamples, holds1] using hh
  | cons t ts ih =>
    rw [List.chain_cons] at hc
    obtain ⟨hle, hc⟩ := hc
    have hfl : (sample1 s (0, t)).lastFlickerableState1 = 0 := sample1_flick _ _
    have hht := sample1_holdTime s (0, t)
    rw [lowSamples_cons, holds1_cons, List.getLastD_cons]
    by_cases hfire : hold1 s (0, t) = true
    · rw [if_pos hfire] at hht
      have h1 := ih (sample1 s (0, t)) t hfl (by rw [hht]) hc
      obtain ⟨-, -, hgt⟩ := (hold1_iff _ _).mp hfire
      rw [hf] at hgt
      simp only [ne_eq, not_true_eq_false, if_false] at hgt
      rw [hfire, List.count_cons_self]
      rw [hht] at h1
      omega
    · rw [if_neg hfire, hf] at hht
      simp only [ne_eq, not_true_eq_false, if_false] at hht
      have h1 := ih (sample1 s (0, t)) t hfl (by rw [hht]; omega) hc
      rw [hht] at h1
      have hb : hold1 s (0, t) = false := by simpa using hfire
      rw [hb, List.count_cons_of_ne (by decide)]
      exact h1

/-- With the pressed level accepted, a sample more than 2000 ms after
`holdTime` forces a LongHold. -/
theorem holds1_fire (ts : List Nat) (s : State) (b : Nat)
    (hf : s.lastFlickerableState1 = 0) (hs : s.lastSteadyState1 = 0)
    (hb : b ∈ ts) (hbt : s.holdTime + 2000 < b) :
    1 ≤ (holds1 s (lowSamples ts)).count true := by
  induction ts generalizing s with
  | nil => simp at hb
  | cons t ts ih =>
    rw [lowSamples_cons, holds1_cons]
    by_cases hfire : hold1 s (0, t) = true
    · rw [hfire, List.count_cons_self]; omega
    · have hnot : ¬ ((t : Int) - (s.holdTime : Int) > 2000) := by
        intro h
        apply hfire
        rw [hold1_iff, hf]
        exact ⟨hs, rfl, by simpa using h⟩
      have hbts : b ∈ ts := by
        rcases List.mem_cons.mp hb with h | h
        · subst h; omega
        · exact h
      have hht := sample1_holdTime s (0, t)
      rw [if_neg hfire, hf] at hht
      simp only [ne_eq, not_true_eq_false, if_false] at hht
      have hst : (sample1 s (0, t)).lastSteadyState1 = 0 := by
        rw [sample1_steady]; split_ifs
        · rfl
        · exact hs
      have hb0 : hold1 s (0, t) = false := by simpa using hfire
      rw [hb0, List.count_cons_of_ne (by decide)]
      exact ih (sample1 s (0, t)) (sample1_flick _ _) hst hbts (by rw [hht]; exact hbt)

/-- A sample after the debounce window accepts the pressed level; a later
sample more than 2000 ms after `holdTime` then forces a LongHold. -/
theorem holds1_fire_after_accept (pre : List Nat) (s : State) (a b : Nat) (mid post : List Nat)
    (hf : s.lastFlickerableState1 = 0) (hd : s.lastDebounceTime1 ≤ s.holdTime)
    (ha : s.holdTime + 10 < a) (hb : s.holdTime + 2000 < b) :
    1 ≤ (holds1 s (lowSamples (pre ++ a :: (mid ++ b :: post)))).count true := by
  induction pre generalizing s with
  | nil =>
    rw [List.nil_append, lowSamples_cons, holds1_cons]
    by_cases hfire : hold1 s (0, a) = true
    · rw [hfire, List.count_cons_self]; omega
    · have hht := sample1_holdTime s (0, a)
      rw [if_neg hfire, hf] at hht
      simp only [ne_eq, not_true_eq_false, if_false] at hht
      have hdb := sample1_debounce s (0, a)
      rw [hf] at hdb
      simp only [ne_eq, not_true_eq_false, if_false] at hdb
      have hst : (sample1 s (0, a)).lastSteadyState1 = 0 := by
        rw [sample1_steady, hdb, if_pos (by simp only []; omega)]
      have hb0 : hold1 s (0, a) = false := by simpa using hfire
      rw [hb0, List.count_cons_of_ne (by decide)]
      exact holds1_fire _ _ b (sample1_flick _ _) hst (by simp) (by rw [hht]; exact hb)
  | cons p pre ih =>
    rw [List.cons_append, lowSamples_cons, holds1_cons]
    by_cases hfire : hold1 s (0, p) = true
    · rw [hfire, List.count_cons_self]; omega
    · have hht := sample1_holdTime s (0, p)
      rw [if_neg hfire, hf] at hht
      simp only [ne_eq, not_true_eq_false, if_false] at hht
      have hdb := sample1_debounce s (0, p)
      rw [hf] at hdb
      simp only [ne_eq, not_true_eq_false, if_false] at hdb
      have hb0 : hold1 s (0, p) = false := by simpa using hfire
      rw [hb0, List.count_cons_of_ne (by decide)]
      exact ih (sample1 s (0, p)) (sample1_flick _ _) (by rw [hdb, hht]; exact hd)
        (by rw [hht]; exact ha) (by rw [hht]; exact hb)

/-- The LongHolds of a hold when the clock reads are stored as they are. -/
theorem holds1_of_hold (s : State) (t0 : Nat) (rest : List Nat)
    (hf : s.lastFlickerableState1 = 1) (hc : List.Chain (· ≤ ·) t0 rest) :
    t0 + 2001 * (holds1 s (lowSamples (t0 :: rest))).count true ≤ rest.getLastD t0 ∧
    ∀ pre a mid b post, rest = pre ++ a :: (mid ++ b :: post) → t0 + 10 < a → t0 + 2000 < b →
      1 ≤ (holds1 s (lowSamples (t0 :: rest))).count true ∧
      (rest.getLastD t0 ≤ t0 + 4001 → (holds1 s (lowSamples (t0 :: rest))).count true = 1) := by
  have hfl : (sample1 s (0, t0)).lastFlickerableState1 = 0 := sample1_flick _ _
  have hnf : hold1 s (0, t0) = false := by
    rw [Bool.eq_false_iff]
    intro h
    obtain ⟨-, -, h⟩ := (hold1_iff _ _).mp h
    rw [hf] at h
    simp at h
  have hht : (sample1 s (0, t0)).holdTime = t0 := by
    rw [sample1_holdTime, hnf, hf]; simp
  have hdb : (sample1 s (0, t0)).lastDebounceTime1 = t0 := by
    rw [sample1_debounce, hf]; simp
  have hcount : (holds1 s (lowSamples (t0 :: rest))).count true =
      (holds1 (sample1 s (0, t0)) (lowSamples rest)).count true := by
    rw [lowSamples_cons, holds1_cons, hnf, List.count_cons_of_ne (by decide)]
  have hbound := holds1_bound rest (sample1 s (0, t0)) t0 hfl (by rw [hht]) hc
  rw [hht] at hbound
  rw [hcount]
  refine ⟨hbound, ?_⟩
  intro pre a mid b post hrest ha hb
  have hone := holds1_fire_after_accept pre (sample1 s (0, t0)) a b mid post hfl
    (by rw [hdb, hht]) (by rw [hht]; exact ha) (by rw [hht]; exact hb)
  rw [← hrest] at hone
  refine ⟨hone, fun hlast => ?_⟩
  omega

/-- C5: the code at the failing input.  From the state in which the program
enters its loop, with button 1 at the pressed level at the first sample, a
LongHold is emitted at that very sample. -/
theorem longHold_at_first_sample :
    holds1 (startup ⟨none, none⟩ 3000) [(0, 3000)] = [true] ∧
    (startup ⟨none, none⟩ 3000).lastSteadyState1 = 0 ∧
    (startup ⟨none, none⟩ 3000).lastFlickerableState1 = 0 ∧
    (startup ⟨none, none⟩ 3000).holdTime = 0 := by
  decide

/-! ### Button 2: noise rejection -/

theorem run2_take_succ (s : State) (xs : List Sample) (k : Nat) (x : Sample)
    (hx : xs[k]? = some x) :
    run2 s (xs.take (k + 1)) = sample2 (run2 s (xs.take k)) x := by
  rw [List.take_succ, hx, run2_append]
  rfl

/-- A sequence of integers that is not 1 at `a` and is 1 at `b ≥ a` becomes 1
at some step in between. -/
theorem rise_between (f : Nat → Int) (a b : Nat) (hab : a ≤ b) (ha : f a ≠ 1) (hb : f b = 1) :
    ∃ k, a ≤ k ∧ k < b ∧ f k ≠ 1 ∧ f (k + 1) = 1 := by
  induction b with
  | zero =>
    have : a = 0 := by omega
    subst this
    exact absurd hb ha
  | succ b ih =>
    by_cases h : f b = 1
    · have hne : a ≠ b + 1 := by
        intro e; subst e; exact ha hb
      obtain ⟨k, h1, h2, h3, h4⟩ := ih (by omega) h
      exact ⟨k, h1, by omega, h3, h4⟩
    · exact ⟨b, by
        by_contra hc
        have : a = b + 1 := by omega
        subst this
        exact ha hb, by omega, h, hb⟩

/-- Between two PressEdges of button 2 the level 1 is accepted at some
sample. -/
theorem edges2_separated (s : State) (xs : List Sample) (i j : Nat) (hij : i < j)
    (hi : (edges2 s xs)[i]? = some true) (hj : (edges2 s xs)[j]? = some true) :
    ∃ k x, i < k ∧ k < j ∧ xs[k]? = some x ∧ x.1 = 1 ∧
      (run2 s (xs.take k)).lastSteadyState2 ≠ 1 ∧
      (run2 s (xs.take (k + 1))).lastSteadyState2 = 1 := by
  obtain ⟨xi, hxi, hei⟩ := edges2_getElem? s xs i true hi
  obtain ⟨xj, hxj, hej⟩ := edges2_getElem? s xs j true hj
  obtain ⟨hacc, -, hlow⟩ := (edge2_iff _ _).mp hei
  obtain ⟨-, hone, -⟩ := (edge2_iff _ _).mp hej
  have hafter : (run2 s (xs.take (i + 1))).lastSteadyState2 = 0 := by
    rw [run2_take_succ s xs i xi hxi, sample2_steady, if_pos hacc, hlow]
  obtain ⟨k, h1, h2, h3, h4⟩ := rise_between
    (fun n => (run2 s (xs.take n)).lastSteadyState2) (i + 1) j (by omega)
    (by simp only []; rw [hafter]; decide) hone
  have hjlen : j < xs.length := by
    by_contra hc
    rw [List.getElem?_eq_none (by omega)] at hxj
    exact absurd hxj (by simp)
  have hk : k < xs.length := by omega
  refine ⟨k, xs[k], by omega, h2, List.getElem?_eq_getElem hk, ?_, h3, h4⟩
  rw [run2_take_succ s xs k xs[k] (List.getElem?_eq_getElem hk), sample2_steady] at h4
  by_contra hne
  split_ifs at h4
  · exact hne h4
  · exact h3 h4

/-! ### Button 1: debounce -/

theorem press1_iff (s : State) (x : Sample) :
    press1 s x = true ↔
      (x.2 : Int) - ((sample1 s x).lastDebounceTime1 : Int) > 10 ∧
        s.lastSteadyState1 = 1 ∧ x.1 = 0 := by
  simp only [press1, PressEdge1, sample1, button1Block, accept1_eq, holdBlock_eq, flicker1_eq,
    decide_eq_true_eq]

theorem run1_nil (s : State) : run1 s [] = s := rfl

theorem run1_cons (s : State) (x : Sample) (xs : List Sample) :
    run1 s (x :: xs) = run1 (sample1 s x) xs := rfl

theorem run1_append (s : State) (xs ys : List Sample) :
    run1 s (xs ++ ys) = run1 (run1 s xs) ys := by
  simp [run1, List.foldl_append]

theorem presses1_append (s : State) (xs ys : List Sample) :
    presses1 s (xs ++ ys) = presses1 s xs ++ presses1 (run1 s xs) ys := by
  induction xs generalizing s with
  | nil => rfl
  | cons x xs ih => simp [presses1, run1_cons, ih]

theorem run1_flick_concat (s : State) (xs : List Sample) (x : Sample) :
    (run1 s (xs ++ [x])).lastFlickerableState1 = x.1 := by
  rw [run1_append, run1_cons, run1_nil, sample1_flick]

/-- Noise keeps button 1 quiet: no PressEdge, and the three debounce variables
follow the samples. -/
theorem noise_quiet1 (xs : List Sample) (s : State) (prev : Int) (tc : Nat)
    (hs : s.lastSteadyState1 = 1) (hf : s.lastFlickerableState1 = prev)
    (hd : s.lastDebounceTime1 = tc) (hl : ∀ x ∈ xs, x.1 = 0 ∨ x.1 = 1)
    (hn : NoSettledLow prev tc xs) :
    presses1 s xs = List.replicate xs.length false ∧
      ∀ k, (run1 s (xs.take k)).lastSteadyState1 = 1 := by
  induction xs generalizing s prev tc with
  | nil => simp [presses1, run1_nil, hs]
  | cons x xs ih =>
    obtain ⟨hx, hrest⟩ := hn
    have hdeb : (sample1 s x).lastDebounceTime1 = if x.1 ≠ prev then x.2 else tc := by
      rw [sample1_debounce, hf, hd]
    have hst : (sample1 s x).lastSteadyState1 = 1 := by
      rw [sample1_steady, hdeb]
      by_cases hc : x.1 ≠ prev
      · rw [if_pos hc, if_neg (by omega)]; exact hs
      · rw [if_neg hc]
        split_ifs with h2
        · rcases hl x (List.mem_cons_self _ _) with h0 | h0
          · have := hx h0; rw [if_neg hc] at this; omega
          · exact h0
        · exact hs
    have hedge : press1 s x = false := by
      rw [Bool.eq_false_iff]
      intro he
      obtain ⟨h1, -, h0⟩ := (press1_iff s x).mp he
      rw [hdeb] at h1
      have := hx h0
      omega
    obtain ⟨ih1, ih2⟩ := ih (sample1 s x) x.1 _ hst (sample1_flick s x) hdeb
      (fun y hy => hl y (List.mem_cons_of_mem _ hy)) hrest
    refine ⟨by simp [presses1, hedge, ih1, List.replicate_succ], fun k => ?_⟩
    cases k with
    | zero => simpa [run1_nil] using hs
    | succ k => simpa [run1_cons] using ih2 k

/-- While the accepted level is 1 and the raw level stays 0 inside the
debounce window, nothing happens. -/
theorem window_quiet1 (xs : List Sample) (s : State) (tc : Nat)
    (hs : s.lastSteadyState1 = 1) (hf : s.lastFlickerableState1 = 0)
    (hd : s.lastDebounceTime1 = tc) (hx : ∀ x ∈ xs, x.1 = 0 ∧ x.2 ≤ tc + 10) :
    presses1 s xs = List.replicate xs.length false ∧
      (run1 s xs).lastSteadyState1 = 1 ∧ (run1 s xs).lastFlickerableState1 = 0 ∧
      (run1 s xs).lastDebounceTime1 = tc := by
  induction xs generalizing s with
  | nil => simp [presses1, run1_nil, hs, hf, hd]
  | cons x xs ih =>
    obtain ⟨h0, ht⟩ := hx x (List.mem_cons_self _ _)
    have hdeb : (sample1 s x).lastDebounceTime1 = tc := by
      rw [sample1_debounce, hf, hd, h0]; simp
    have hst : (sample1 s x).lastSteadyState1 = 1 := by
      rw [sample1_steady, hdeb, if_neg (by omega)]; exact hs
    have hedge : press1 s x = false := by
      rw [Bool.eq_false_iff]
      intro he
      obtain ⟨h1, -, -⟩ := (press1_iff s x).mp he
      rw [hdeb] at h1
      omega
    obtain ⟨ih1, ih2⟩ := ih (sample1 s x) hst (by rw [sample1_flick, h0]) hdeb
      (fun y hy => hx y (List.mem_cons_of_mem _ hy))
    exact ⟨by simp [presses1, hedge, ih1, List.replicate_succ], by simpa [run1_cons] using ih2⟩

/-- Once the pressed level is accepted, further samples at 0 emit nothing. -/
theorem pressed_quiet1 (xs : List Sample) (s : State)
    (hs : s.lastSteadyState1 = 0) (hx : ∀ x ∈ xs, x.1 = 0) :
    presses1 s xs = List.replicate xs.length false := by
  induction xs generalizing s with
  | nil => simp [presses1]
  | cons x xs ih =>
    have h0 := hx x (List.mem_cons_self _ _)
    have hst : (sample1 s x).lastSteadyState1 = 0 := by
      rw [sample1_steady]; split_ifs
      · exact h0
      · exact hs
    have hedge : press1 s x = false := by
      rw [Bool.eq_false_iff]
      intro he
      obtain ⟨-, h1, -⟩ := (press1_iff s x).mp he
      omega
    simp [presses1, hedge, ih (sample1 s x) hst (fun y hy => hx y (List.mem_cons_of_mem _ hy)),
      List.replicate_succ]

theorem presses1_clean_press (s : State) (noise pre post : List Sample) (tc tstar : Nat)
    (hs : s.lastSteadyState1 = 1) (hf : s.lastFlickerableState1 = 1)
    (hl : ∀ x ∈ noise, x.1 = 0 ∨ x.1 = 1)
    (hn : NoSettledLow 1 s.lastDebounceTime1 noise)
    (hlast : ∀ x ∈ noise.getLast?, x.1 = 1)
    (hpre : ∀ x ∈ pre, x.1 = 0 ∧ x.2 ≤ tc + 10)
    (hstar : tc + 10 < tstar)
    (hpost : ∀ x ∈ post, x.1 = 0) :
    presses1 s (noise ++ (0, tc) :: (pre ++ (0, tstar) :: post)) =
      List.replicate (noise.length + 1 + pre.length) false ++
        true :: List.replicate post.length false := by
  obtain ⟨hn1, hn2⟩ := noise_quiet1 noise s 1 _ hs hf rfl hl hn
  -- the state after the noise
  have hs1 : (run1 s noise).lastSteadyState1 = 1 := by
    simpa using hn2 noise.length
  have hf1 : (run1 s noise).lastFlickerableState1 = 1 := by
    rcases List.eq_nil_or_concat noise with h | ⟨L, b, h⟩
    · subst h; simpa [run1_nil] using hf
    · rw [List.concat_eq_append] at h
      subst h
      rw [run1_flick_concat]
      exact hlast b (by simp)
  -- the sample that changes the level to 0
  set s1 := run1 s noise with hs1def
  have hd2 : (sample1 s1 (0, tc)).lastDebounceTime1 = tc := by
    rw [sample1_debounce, hf1]; simp
  have hs2 : (sample1 s1 (0, tc)).lastSteadyState1 = 1 := by
    rw [sample1_steady, hd2, if_neg (by omega)]; exact hs1
  have hf2 : (sample1 s1 (0, tc)).lastFlickerableState1 = 0 := sample1_flick _ _
  have he2 : press1 s1 (0, tc) = false := by
    rw [Bool.eq_false_iff]
    intro he
    obtain ⟨h1, -, -⟩ := (press1_iff _ _).mp he
    rw [hd2] at h1
    simp at h1
  -- the samples inside the window
  obtain ⟨hw1, hw2, hw3, hw4⟩ := window_quiet1 pre _ tc hs2 hf2 hd2 hpre
  set s2 := run1 (sample1 s1 (0, tc)) pre with hs2def
  -- the first sample after the window
  have hd3 : (sample1 s2 (0, tstar)).lastDebounceTime1 = tc := by
    rw [sample1_debounce, hw3, hw4]; simp
  have he3 : press1 s2 (0, tstar) = true := by
    rw [press1_iff, hd3]
    exact ⟨by simp only []; omega, hw2, rfl⟩
  have hs3 : (sample1 s2 (0, tstar)).lastSteadyState1 = 0 := by
    rw [sample1_steady, hd3, if_pos (by simp only []; omega)]
  have hp := pressed_quiet1 post _ hs3 hpost
  rw [presses1_append, hn1, presses1, he2, presses1_append, hw1, presses1, he3, hp]
  simp only [List.replicate_add, List.replicate_one, List.append_assoc, List.singleton_append,
    List.cons_append, List.nil_append]

/-- One PressEdge for a clean press, for both buttons, when the clock reads
are stored as they are. -/
theorem clean_press_both (s : State) (noise pre post : List Sample) (tc tstar : Nat)
    (hl : ∀ x ∈ noise, x.1 = 0 ∨ x.1 = 1)
    (hlast : ∀ x ∈ noise.getLast?, x.1 = 1)
    (hpre : ∀ x ∈ pre, x.1 = 0 ∧ x.2 ≤ tc + 10)
    (hstar : tc + 10 < tstar)
    (hpost : ∀ x ∈ post, x.1 = 0) :
    (s.lastSteadyState2 = 1 → s.lastFlickerableState2 = 1 →
      NoSettledLow 1 s.lastDebounceTime2 noise →
      edges2 s (noise ++ (0, tc) :: (pre ++ (0, tstar) :: post)) =
        List.replicate (noise.length + 1 + pre.length) false ++
          true :: List.replicate post.length false ∧
      (edges2 s (noise ++ (0, tc) :: (pre ++ (0, tstar) :: post))).count true = 1) ∧
    (s.lastSteadyState1 = 1 → s.lastFlickerableState1 = 1 →
      NoSettledLow 1 s.lastDebounceTime1 noise →
      presses1 s (noise ++ (0, tc) :: (pre ++ (0, tstar) :: post)) =
        List.replicate (noise.length + 1 + pre.length) false ++
          true :: List.replicate post.length false ∧
      (presses1 s (noise ++ (0, tc) :: (pre ++ (0, tstar) :: post))).count true = 1) := by
  constructor
  · intro hs hf hn
    have h := edges2_clean_press s noise pre post tc tstar hs hf hl hn hlast hpre hstar hpost
    refine ⟨h, ?_⟩
    rw [h]
    simp [List.count_replicate]
  · intro hs hf hn
    have h := presses1_clean_press s noise pre post tc tstar hs hf hl hn hlast hpre hstar hpost
    refine ⟨h, ?_⟩
    rw [h]
    simp [List.count_replicate]

/-! ### The whole loop: distance never decreases -/

theorem Inv_mono (s : State) (now now2 : Nat) (h : Inv s now) (hle : now ≤ now2) :
    Inv s now2 := by
  obtain ⟨h1, h2, h3, h4, h5, h6⟩ := h
  refine ⟨by omega, by omega, h3, h4, h5, ?_⟩
  rcases h6 with h6 | h6
  · exact Or.inl h6
  · right
    split_ifs at h6 ⊢ <;> omega

theorem Inv_startup (nvs : Store) (t : Nat) : Inv (startup nvs t) t := by
  unfold Inv
  simp [startup, NVS, initial]
  cases nvs.Distance <;> cases nvs.Time <;> simp

theorem statsTick_RPS (s : State) (t : Nat) : (statsTick s t).RPS = 0 := rfl

theorem statsTick_periodTime (s : State) (t : Nat) : (statsTick s t).periodTime = t := rfl

theorem statsTick_SpeedMS (s : State) (t : Nat) :
    (statsTick s t).SpeedMS = ((s.RPS : ℚ) * CIRCUMFERENCE + s.SpeedMS) / 2 := rfl

theorem statsTick_Distance (s : State) (t : Nat) :
    (statsTick s t).Distance = s.Distance + (statsTick s t).SpeedMS / 1000 := rfl

theorem statsTick_button2 (s : State) (t : Nat) :
    (statsTick s t).lastDebounceTime2 = s.lastDebounceTime2 ∧
    (statsTick s t).lastSteadyState2 = s.lastSteadyState2 ∧
    (statsTick s t).lastFlickerableState2 = s.lastFlickerableState2 ∧
    (statsTick s t).currentState2 = s.currentState2 := ⟨rfl, rfl, rfl, rfl⟩

theorem statsTick_SpeedMS_nonneg (s : State) (t : Nat) (h1 : 0 ≤ s.RPS) (h2 : 0 ≤ s.SpeedMS) :
    0 ≤ (statsTick s t).SpeedMS := by
  rw [statsTick_SpeedMS]
  have : (0 : ℚ) ≤ (s.RPS : ℚ) := by exact_mod_cast h1
  unfold CIRCUMFERENCE
  positivity

theorem Inv_tick (s : State) (now tc tp : Nat) (h : Inv s now) (h1 : now ≤ tc) (h2 : tc ≤ tp) :
    Inv (tickBlock s tc tp) tp ∧ (tickBlock s tc tp).RPS ≤ 101 := by
  obtain ⟨i1, i2, i3, i4, i5, i6⟩ := h
  unfold tickBlock
  split_ifs with hp
  · refine ⟨⟨?_, ?_, ?_, ?_, ?_, ?_⟩, ?_⟩
    · rw [statsTick_periodTime]
    · rw [(statsTick_button2 s tp).1]; omega
    · rw [statsTick_RPS]
    · rw [statsTick_RPS]; decide
    · exact statsTick_SpeedMS_nonneg s tp i3 i5
    · exact Or.inl (statsTick_RPS s tp)
    · rw [statsTick_RPS]; decide
  · unfold PeriodElapsed at hp
    have hb : s.RPS ≤ 101 := by
      rcases i6 with h0 | h0
      · omega
      · split_ifs at h0 <;> omega
    exact ⟨Inv_mono s now tp ⟨i1, i2, i3, i4, i5, i6⟩ (by omega), hb⟩

theorem button1Block_frame (s : State) (a b c d e : Nat) :
    (button1Block s a b c d e).periodTime = s.periodTime ∧
    (button1Block s a b c d e).RPS = s.RPS ∧
    (button1Block s a b c d e).lastDebounceTime2 = s.lastDebounceTime2 ∧
    (button1Block s a b c d e).lastSteadyState2 = s.lastSteadyState2 ∧
    (button1Block s a b c d e).lastFlickerableState2 = s.lastFlickerableState2 ∧
    (button1Block s a b c d e).currentState2 = s.currentState2 ∧
    (button1Block s a b c d e).SpeedMS = (if LongHold (flicker1 s a b) c then 0 else s.SpeedMS) ∧
    (button1Block s a b c d e).Distance =
      (if LongHold (flicker1 s a b) c then 0 else s.Distance) := by
  simp only [button1Block, accept1_eq, holdBlock_eq]
  simp only [flicker1_eq, and_self]

theorem renderBlock_frame (s : State) (a b : Nat) :
    (renderBlock s a b).periodTime = s.periodTime ∧
    (renderBlock s a b).RPS = s.RPS ∧
    (renderBlock s a b).lastDebounceTime2 = s.lastDebounceTime2 ∧
    (renderBlock s a b).lastSteadyState2 = s.lastSteadyState2 ∧
    (renderBlock s a b).lastFlickerableState2 = s.lastFlickerableState2 ∧
    (renderBlock s a b).SpeedMS = s.SpeedMS ∧
    (renderBlock s a b).Distance = s.Distance := by
  unfold renderBlock RewriteDisplayData
  split_ifs <;> exact ⟨rfl, rfl, rfl, rfl, rfl, rfl, rfl⟩

theorem button2Block_fields (s : State) (td ta : Nat) :
    (button2Block s td ta).periodTime = s.periodTime ∧
    (button2Block s td ta).SpeedMS = s.SpeedMS ∧
    (button2Block s td ta).Distance = s.Distance ∧
    (button2Block s td ta).lastFlickerableState2 = s.currentState2 ∧
    (button2Block s td ta).lastDebounceTime2 =
      (if s.currentState2 ≠ s.lastFlickerableState2 then td else s.lastDebounceTime2) ∧
    (button2Block s td ta).lastSteadyState2 =
      (if (ta : Int) - ((button2Block s td ta).lastDebounceTime2 : Int) > 10
        then s.currentState2 else s.lastSteadyState2) ∧
    (button2Block s td ta).RPS =
      (if (ta : Int) - ((button2Block s td ta).lastDebounceTime2 : Int) > 10 ∧
          s.lastSteadyState2 = 1 ∧ s.currentState2 = 0
        then wrapInt32 (s.RPS + 1) else s.RPS) := by
  simp only [button2Block, accept2_eq, PressEdge2]
  simp only [flicker2_eq, and_self]

theorem Inv_button1 (s : State) (now a b c d e : Nat) (h : Inv s now) :
    Inv (button1Block s a b c d e) now := by
  obtain ⟨f1, f2, f3, f4, f5, f6, f7, -⟩ := button1Block_frame s a b c d e
  unfold Inv at h ⊢
  rw [f1, f2, f3, f4, f5, f7]
  obtain ⟨i1, i2, i3, i4, i5, i6⟩ := h
  refine ⟨i1, i2, i3, i4, ?_, i6⟩
  split_ifs
  · exact le_refl _
  · exact i5

theorem Inv_render (s : State) (now a b : Nat) (h : Inv s now) :
    Inv (renderBlock s a b) now := by
  obtain ⟨f1, f2, f3, f4, f5, f6, -⟩ := renderBlock_frame s a b
  unfold Inv at h ⊢
  rw [f1, f2, f3, f4, f5, f6]
  exact h

theorem Inv_button2 (s : State) (now td ta : Nat) (h : Inv s now) (hb : s.RPS ≤ 101)
    (h1 : now ≤ td) (h2 : td ≤ ta) : Inv (button2Block s td ta) ta := by
  obtain ⟨f1, f2, -, f4, f5, f6, f7⟩ := button2Block_fields s td ta
  obtain ⟨i1, i2, i3, i4, i5, i6⟩ := h
  have hw : wrapInt32 (s.RPS + 1) = s.RPS + 1 := wrapInt32_of_range _ (by omega) (by omega)
  rw [f5] at f6 f7
  rw [hw] at f7
  unfold Inv
  rw [f1, f2, f4, f5, f6, f7]
  refine ⟨by omega, ?_, ?_, ?_, i5, ?_⟩
  · split_ifs <;> omega
  · split_ifs <;> omega
  · split_ifs <;> omega
  · by_cases hc : s.currentState2 ≠ s.lastFlickerableState2
    · simp only [if_pos hc]
      rcases i6 with h0 | h0
      · split_ifs <;> omega
      · split_ifs at h0 ⊢ <;> omega
    · simp only [if_neg hc]
      rcases i6 with h0 | h0
      · split_ifs <;> omega
      · split_ifs at h0 ⊢ <;> omega

theorem Inv_loopIter (s : State) (now : Nat) (i : Input) (h : Inv s now)
    (h1 : now ≤ i.clk.tick) (ho : i.clk.Ordered) : Inv (loopIter s i) i.clk.rewrite := by
  obtain ⟨o1, o2, o3, o4, o5, o6, o7, o8, o9, o10⟩ := ho
  have h12 : Inv { s with currentState1 := i.level1, currentState2 := i.level2 } now := h
  obtain ⟨h3, hb⟩ := Inv_tick _ now i.clk.tick i.clk.period h12 h1 o1
  have h4 := Inv_button1 _ _ i.clk.debounce1 i.clk.hold i.clk.holdCheck i.clk.reset
    i.clk.accept1 h3
  have hb4 := (button1Block_frame (tickBlock
    { s with currentState1 := i.level1, currentState2 := i.level2 } i.clk.tick i.clk.period)
    i.clk.debounce1 i.clk.hold i.clk.holdCheck i.clk.reset i.clk.accept1).2.1
  have h5 := Inv_button2 _ _ i.clk.debounce2 i.clk.accept2 h4 (by rw [hb4]; exact hb)
    (by omega) o8
  have h6 := Inv_render _ _ i.clk.renderCheck i.clk.rewrite h5
  exact Inv_mono _ _ _ h6 (by omega)

theorem run_nil (s : State) : run s [] = s := rfl

theorem run_cons (s : State) (i : Input) (is : List Input) :
    run s (i :: is) = run (loopIter s i) is := rfl

theorem Inv_run (is : List Input) (s : State) (now : Nat) (h : Inv s now)
    (hc : ClockOrdered now is) : Inv (run s is) (endTime now is) := by
  induction is generalizing s now with
  | nil => exact h
  | cons i is ih =>
    obtain ⟨h1, h2, h3⟩ := hc
    exact ih (loopIter s i) i.clk.rewrite (Inv_loopIter s now i h h1 h2) h3

theorem statsTick_Distance_le (s : State) (t : Nat) (h1 : 0 ≤ s.RPS) (h2 : 0 ≤ s.SpeedMS) :
    s.Distance ≤ (statsTick s t).Distance := by
  rw [statsTick_Distance]
  have := statsTick_SpeedMS_nonneg s t h1 h2
  linarith

theorem loopIter_Distance_le (s : State) (i : Input) (h1 : 0 ≤ s.RPS) (h2 : 0 ≤ s.SpeedMS)
    (hr : ¬ ResetFires s i) : s.Distance ≤ (loopIter s i).Distance := by
  unfold ResetFires at hr
  unfold loopIter
  simp only []
  rw [(renderBlock_frame _ _ _).2.2.2.2.2.2, (button2Block_fields _ _ _).2.2.1,
    (button1Block_frame _ _ _ _ _ _).2.2.2.2.2.2.2, if_neg hr]
  unfold tickBlock
  split_ifs
  · exact statsTick_Distance_le
      { s with currentState1 := i.level1, currentState2 := i.level2 } i.clk.period h1 h2
  · exact le_refl _

theorem holds1_getElem?_zero (s : State) (x : Sample) (xs : List Sample) (b : Bool)
    (h : (holds1 s (x :: xs))[0]? = some b) : hold1 s x = b := by
  simpa [holds1_cons] using h

theorem holds1_getElem?_succ (s : State) (x : Sample) (xs : List Sample) (k : Nat) :
    (holds1 s (x :: xs))[k + 1]? = (holds1 (sample1 s x) xs)[k]? := by
  simp [holds1_cons]

/-- What a LongHold needs when the clock reads are stored as they are: more
than 2000 ms of samples at the pressed level, or a run that began with the
flickering level 0, has seen the pressed level at every sample, and still
has the `holdTime` it began with. -/
theorem holds1_needs_hold (xs : List Sample) (s : State) (k : Nat)
    (h : (holds1 s xs)[k]? = some true) :
    (∃ j xj xk, j ≤ k ∧ xs[j]? = some xj ∧ xs[k]? = some xk ∧
      (xk.2 : Int) - (xj.2 : Int) > 2000 ∧
      ∀ m x, j ≤ m → m ≤ k → xs[m]? = some x → x.1 = 0) ∨
    (s.lastFlickerableState1 = 0 ∧
      (∃ xk, xs[k]? = some xk ∧ (xk.2 : Int) - (s.holdTime : Int) > 2000) ∧
      ∀ m x, m ≤ k → xs[m]? = some x → x.1 = 0) := by
  induction xs generalizing s k with
  | nil => simp [holds1] at h
  | cons x xs ih =>
    cases k with
    | zero =>
      have hf := holds1_getElem?_zero s x xs true h
      obtain ⟨-, h0, hgt⟩ := (hold1_iff _ _).mp hf
      by_cases hc : x.1 ≠ s.lastFlickerableState1
      · rw [if_pos hc] at hgt; omega
      · rw [if_neg hc] at hgt
        have hc2 : x.1 = s.lastFlickerableState1 := by simpa using hc
        right
        refine ⟨by rw [← hc2]; exact h0, ⟨x, by simp, hgt⟩, ?_⟩
        intro m y hm hy
        have : m = 0 := by omega
        subst this
        simp only [List.getElem?_cons_zero, Option.some.injEq] at hy
        rw [← hy]; exact h0
    | succ k =>
      rw [holds1_getElem?_succ] at h
      rcases ih (sample1 s x) k h with ⟨j, xj, xk, hjk, hj, hk, hgt, hall⟩ | ⟨hfl, ⟨xk, hk, hgt⟩, hall⟩
      · left
        refine ⟨j + 1, xj, xk, by omega, by simpa using hj, by simpa using hk, hgt, ?_⟩
        intro m y hm1 hm2 hy
        obtain ⟨m, rfl⟩ : ∃ n, m = n + 1 := ⟨m - 1, by omega⟩
        exact hall m y (by omega) (by omega) (by simpa using hy)
      · have hx0 : x.1 = 0 := by rw [← sample1_flick s x]; exact hfl
        have hall2 : ∀ m y, m ≤ k + 1 → (x :: xs)[m]? = some y → y.1 = 0 := by
          intro m y hm hy
          cases m with
          | zero =>
            simp only [List.getElem?_cons_zero, Option.some.injEq] at hy
            rw [← hy]; exact hx0
          | succ m => exact hall m y (by omega) (by simpa using hy)
        have hht := sample1_holdTime s x
        by_cases hfire : hold1 s x = true
        · rw [if_pos hfire] at hht
          rw [hht] at hgt
          left
          exact ⟨0, x, xk, by omega, by simp, by simpa using hk, hgt,
            fun m y _ hm hy => hall2 m y hm hy⟩
        · rw [if_neg hfire] at hht
          by_cases hc : x.1 ≠ s.lastFlickerableState1
          · rw [if_pos hc] at hht
            rw [hht] at hgt
            left
            exact ⟨0, x, xk, by omega, by simp, by simpa using hk, hgt,
              fun m y _ hm hy => hall2 m y hm hy⟩
          · rw [if_neg hc] at hht
            rw [hht] at hgt
            have hc2 : x.1 = s.lastFlickerableState1 := by simpa using hc
            right
            exact ⟨by rw [← hc2]; exact hx0, ⟨xk, by simpa using hk, hgt⟩, hall2⟩

/-! ### Startup load, view selection, time line, pulse counter, average speed -/

/-- C18: the code at the failing input.  Started from a stored time of 3599 s,
the first statistics tick formats the elapsed time 3600 into the fields 1, 60
and 0: the minutes field is `totalWorkTime / 60`, not reduced modulo 60. -/
theorem timeLine_at_one_hour :
    (statsTick (startup ⟨some 0, some 3599⟩ 3000) 4001).totalWorkTime = 3600 ∧
    (statsTick (startup ⟨some 0, some 3599⟩ 3000) 4001).TimeBufferAll =
      ⟨"TIME: %02lu:%02lu:%02lu", [Arg.int 1, Arg.int 60, Arg.int 0]⟩ := by
  have h : wrapInt32 (3599 + 1) = 3600 := by decide
  simp [statsTick, persist, UpdateNVSData, UpdateBuffers, startup, NVS, initial, h]
  decide

/-- C13, as the claim states it, fails: with the pulse count at the largest
`int` value, a PressEdge of button 2 leaves the count at the smallest value,
not at the largest. -/
theorem pulse_counter_counterexample :
    PressEdge2 { initial ⟨none, none⟩ with RPS := 2147483647, lastSteadyState2 := 1 } 3011 ∧
    (accept2 { initial ⟨none, none⟩ with RPS := 2147483647, lastSteadyState2 := 1 } 3011).RPS =
      -2147483648 := by
  decide

/-- C13, amended. Pulse counter: a PressEdge of button 2 (`RPS++`, line 191)
turns a pulse count below the largest `int` value into the count plus 1, which
is `min (count + 1) MAX` there; nothing holds the count at the largest value,
where the increment wraps to the smallest value. -/
theorem pulse_counter_increment (s : State) (t : Nat) (he : PressEdge2 s t)
    (h0 : -2147483648 ≤ s.RPS) (h1 : s.RPS ≤ 2147483647) :
    (s.RPS < 2147483647 → (accept2 s t).RPS = s.RPS + 1 ∧
      (accept2 s t).RPS = min (s.RPS + 1) 2147483647) ∧
    (s.RPS = 2147483647 → (accept2 s t).RPS = -2147483648) := by
  have hr : (accept2 s t).RPS = wrapInt32 (s.RPS + 1) := by
    rw [accept2_eq]; simp only [if_pos he]
  constructor
  · intro hlt
    have hw : wrapInt32 (s.RPS + 1) = s.RPS + 1 := wrapInt32_of_range _ (by omega) (by omega)
    rw [hr, hw]
    exact ⟨rfl, by omega⟩
  · intro hmax
    rw [hr, hmax]
    decide

theorem pulse_counter_increment_witness :
    (accept2 { initial ⟨none, none⟩ with RPS := 41, lastSteadyState2 := 1 } 3011).RPS = 42 :=
  ((pulse_counter_increment { initial ⟨none, none⟩ with RPS := 41, lastSteadyState2 := 1 }
    3011 (by decide) (by decide) (by decide)).1 (by decide)).1

/-- C11, as the claim states it, fails: started from a stored time of -1, the
first statistics tick increments the elapsed time to 0 and divides by it; the
average speed is not a number, and no guard gives it the value 0. -/
theorem avgSpeed_counterexample :
    (statsTick (startup ⟨some 0, some (-1)⟩ 3000) 4001).totalWorkTime = 0 ∧
    (statsTick (startup ⟨some 0, some (-1)⟩ 3000) 4001).AvgSpeed = none := by
  have h : wrapInt32 0 = 0 := by decide
  simp [statsTick, persist, UpdateNVSData, UpdateBuffers, startup, NVS, initial, h, fdiv]

theorem statsTick_AvgSpeed (s : State) (t : Nat) :
    (statsTick s t).AvgSpeed =
      fdiv (statsTick s t).Distance (((statsTick s t).totalWorkTime : ℚ) / 3600) := rfl

theorem statsTick_totalWorkTime (s : State) (t : Nat) :
    (statsTick s t).totalWorkTime = wrapInt32 (s.totalWorkTime + 1) := rfl

/-- C11, amended. Average speed: for every elapsed time an `int32_t` holds
before the tick, the tick divides by zero exactly when that time is -1 (there
is no guard, and the average is then not a number); for an elapsed time
`0 ≤ t < 2^31 - 1` the elapsed time is at least 1 after the increment and the
average speed is the distance divided by elapsed / 3600. -/
theorem avgSpeed_defined (s : State) (t : Nat)
    (h0 : -2147483648 ≤ s.totalWorkTime) (h1 : s.totalWorkTime ≤ 2147483647) :
    ((statsTick s t).AvgSpeed = none ↔ s.totalWorkTime = -1) ∧
    (0 ≤ s.totalWorkTime → s.totalWorkTime < 2147483647 →
      1 ≤ (statsTick s t).totalWorkTime ∧
      (statsTick s t).AvgSpeed =
        some ((statsTick s t).Distance / (((statsTick s t).totalWorkTime : ℚ) / 3600))) := by
  have hz : wrapInt32 (s.totalWorkTime + 1) = 0 ↔ s.totalWorkTime = -1 := by
    unfold wrapInt32; omega
  have hdiv : (((statsTick s t).totalWorkTime : ℚ) / 3600 = 0) ↔ s.totalWorkTime = -1 := by
    rw [statsTick_totalWorkTime, ← hz]
    constructor
    · intro h
      have h2 : ((wrapInt32 (s.totalWorkTime + 1) : Int) : ℚ) = 0 := by
        rcases div_eq_zero_iff.mp h with h3 | h3
        · exact h3
        · norm_num at h3
      exact_mod_cast h2
    · intro h
      rw [h]; simp
  constructor
  · rw [statsTick_AvgSpeed, ← hdiv]
    unfold fdiv
    split_ifs with h <;> simp [h]
  · intro hn hlt
    have hw : wrapInt32 (s.totalWorkTime + 1) = s.totalWorkTime + 1 :=
      wrapInt32_of_range _ (by omega) (by omega)
    have hne : ¬ (((statsTick s t).totalWorkTime : ℚ) / 3600 = 0) := by
      rw [hdiv]; omega
    refine ⟨by rw [statsTick_totalWorkTime, hw]; omega, ?_⟩
    rw [statsTick_AvgSpeed]
    unfold fdiv
    rw [if_neg hne]

theorem avgSpeed_defined_witness :
    1 ≤ (statsTick (startup ⟨some 12345, some 77⟩ 3000) 4001).totalWorkTime ∧
    (statsTick (startup ⟨some 12345, some 77⟩ 3000) 4001).AvgSpeed =
      some ((statsTick (startup ⟨some 12345, some 77⟩ 3000) 4001).Distance /
        (((statsTick (startup ⟨some 12345, some 77⟩ 3000) 4001).totalWorkTime : ℚ) / 3600)) :=
  (avgSpeed_defined (startup ⟨some 12345, some 77⟩ 3000) 4001 (by decide) (by decide)).2
    (by decide) (by decide)

/-! ### Frames of the blocks -/

theorem renderBlock_eq (s : State) (a b : Nat) :
    renderBlock s a b =
      { s with dev := (renderBlock s a b).dev, lastRewrite := (renderBlock s a b).lastRewrite } := by
  unfold renderBlock RewriteDisplayData
  split_ifs <;> rfl

theorem button2Block_eq (s : State) (td ta : Nat) :
    button2Block s td ta =
      { s with
        lastDebounceTime2 := (button2Block s td ta).lastDebounceTime2
        lastFlickerableState2 := (button2Block s td ta).lastFlickerableState2
        RPS := (button2Block s td ta).RPS
        lastSteadyState2 := (button2Block s td ta).lastSteadyState2 } := by
  simp only [button2Block, accept2_eq, flicker2_eq]

theorem button1Block_eq (s : State) (a b c d e : Nat) :
    button1Block s a b c d e =
      { holdBlock (flicker1 s a b) c d with
        ScreenMode := (button1Block s a b c d e).ScreenMode
        lastSteadyState1 := (button1Block s a b c d e).lastSteadyState1 } := by
  simp only [button1Block, accept1_eq]

theorem renderBlock_ride (s : State) (a b : Nat) : (renderBlock s a b).ride = s.ride := by
  rw [renderBlock_eq]; rfl

theorem button2Block_ride (s : State) (td ta : Nat) : (button2Block s td ta).ride = s.ride := by
  rw [button2Block_eq]; rfl

theorem button1Block_ride (s : State) (a b c d e : Nat) (h : ¬ LongHold (flicker1 s a b) c) :
    (button1Block s a b c d e).ride = s.ride := by
  rw [button1Block_eq]
  unfold holdBlock
  rw [if_neg h, flicker1_eq]
  rfl

theorem loopIter_ride (s : State) (i : Input) (ht : ¬ TickRuns s i) (hr : ¬ ResetFires s i) :
    (loopIter s i).ride = s.ride := by
  unfold TickRuns at ht
  unfold ResetFires at hr
  unfold loopIter
  simp only []
  rw [renderBlock_ride, button2Block_ride, button1Block_ride _ _ _ _ _ _ hr]
  unfold tickBlock
  rw [if_neg ht]
  rfl

/-! ### Tick and reset in one iteration -/

theorem toInt32_of_range (x : ℚ) (h0 : -2147483648 < x) (h1 : x < 2147483648) :
    toInt32 x = if 0 ≤ x then ⌊x⌋ else ⌈x⌉ := by
  unfold toInt32
  by_cases h : 0 ≤ x
  · have hf0 : 0 ≤ ⌊x⌋ := Int.floor_nonneg.mpr h
    have hf1 : ⌊x⌋ < 2147483648 := by
      have : (⌊x⌋ : ℚ) < 2147483648 := lt_of_le_of_lt (Int.floor_le x) h1
      exact_mod_cast this
    simp only [if_pos h]
    rw [if_pos ⟨by omega, by omega⟩]
  · have hx : x < 0 := lt_of_not_le h
    have hc0 : ⌈x⌉ ≤ 0 := Int.ceil_le.mpr (by simpa using hx.le)
    have hc1 : -2147483648 < ⌈x⌉ := by
      have : ((-2147483648 : Int) : ℚ) < (⌈x⌉ : ℚ) := by
        have := Int.le_ceil x
        push_cast
        linarith
      exact_mod_cast this
    simp only [if_neg h]
    rw [if_pos ⟨by omega, by omega⟩]

theorem button1Block_nvs (s : State) (a b c d e : Nat) :
    (button1Block s a b c d e).nvs = s.nvs := by
  rw [button1Block_eq, holdBlock_eq, flicker1_eq]

theorem button1Block_reset (s : State) (a b c d e : Nat) (h : LongHold (flicker1 s a b) c) :
    (button1Block s a b c d e).Distance = 0 ∧
    (button1Block s a b c d e).totalWorkTime = 0 ∧
    (button1Block s a b c d e).SpeedMS = 0 ∧
    (button1Block s a b c d e).SpeedKMH = 0 ∧
    (button1Block s a b c d e).AvgSpeed = some 0 ∧
    (button1Block s a b c d e).lastSpeed1 = 0 ∧
    (button1Block s a b c d e).ScreenMode = ALL := by
  have hst : (holdBlock (flicker1 s a b) c d).lastSteadyState1 = 0 := by
    rw [holdBlock_eq]; exact h.1
  have hne : ¬ PressEdge1 (holdBlock (flicker1 s a b) c d) e := by
    intro hp
    have := hp.2.1
    rw [hst] at this
    exact absurd this (by decide)
  simp only [button1Block, accept1_eq, if_neg hne]
  simp only [holdBlock_eq, if_pos h, and_self]

theorem loopIter_after_button1 (s : State) (i : Input) :
    (loopIter s i).ride =
      (button1Block (tickBlock { s with currentState1 := i.level1, currentState2 := i.level2 }
        i.clk.tick i.clk.period) i.clk.debounce1 i.clk.hold i.clk.holdCheck i.clk.reset
        i.clk.accept1).ride ∧
    (loopIter s i).ScreenMode =
      (button1Block (tickBlock { s with currentState1 := i.level1, currentState2 := i.level2 }
        i.clk.tick i.clk.period) i.clk.debounce1 i.clk.hold i.clk.holdCheck i.clk.reset
        i.clk.accept1).ScreenMode := by
  unfold loopIter
  simp only []
  constructor
  · rw [renderBlock_ride, button2Block_ride]
  · rw [renderBlock_eq, button2Block_eq]

theorem loopIter_periodTime (s : State) (i : Input) :
    (loopIter s i).periodTime = if TickRuns s i then i.clk.period else s.periodTime := by
  unfold loopIter
  simp only []
  rw [(renderBlock_frame _ _ _).1, (button2Block_fields _ _ _).1,
    (button1Block_frame _ _ _ _ _ _).1]
  unfold tickBlock TickRuns
  split_ifs <;> rfl

theorem run_periodTime_of_noTick (is : List Input) (s : State) (h : NoTickIn s is) :
    (run s is).periodTime = s.periodTime := by
  induction is generalizing s with
  | nil => rfl
  | cons i is ih =>
    obtain ⟨h1, h2⟩ := h
    rw [run_cons, ih _ h2, loopIter_periodTime, if_neg h1]

theorem wrapInt32_le (x : Int) (h : -2147483648 ≤ x) : wrapInt32 x ≤ x := by
  unfold wrapInt32
  omega

theorem loopIter_totalWorkTime_le (s : State) (i : Input) (h0 : 0 ≤ s.totalWorkTime) :
    (loopIter s i).totalWorkTime ≤ s.totalWorkTime + 1 := by
  have h1 := congrArg Ride.totalWorkTime (loopIter_after_button1 s i).1
  have h2 : ∀ (u : State) (a b c d e : Nat), (button1Block u a b c d e).totalWorkTime =
      if LongHold (flicker1 u a b) c then 0 else u.totalWorkTime := by
    intro u a b c d e
    rw [button1Block_eq, holdBlock_eq, flicker1_eq]
  have h3 : (loopIter s i).totalWorkTime = _ := h1.trans (h2 _ _ _ _ _ _)
  rw [h3]
  split_ifs
  · omega
  · unfold tickBlock
    split_ifs
    · rw [statsTick_totalWorkTime]
      exact wrapInt32_le _ (by simp only []; omega)
    · simp only []; omega

/-! ### Pulse conservation -/

theorem tickBlock_RPS (s : State) (i : Input) :
    (tickBlock { s with currentState1 := i.level1, currentState2 := i.level2 }
      i.clk.tick i.clk.period).RPS = if TickRuns s i then 0 else s.RPS := by
  unfold tickBlock TickRuns
  split_ifs <;> rfl

theorem button2Block_RPS (s : State) (td ta : Nat) :
    (button2Block s td ta).RPS =
      if PressEdge2 (flicker2 s td) ta then wrapInt32 (s.RPS + 1) else s.RPS := by
  have h : (flicker2 s td).RPS = s.RPS := by rw [flicker2_eq]
  simp only [button2Block, accept2_eq, h]

theorem loopIter_RPS (s : State) (i : Input) :
    (loopIter s i).RPS =
      if Edge2Fires s i then wrapInt32 ((if TickRuns s i then 0 else s.RPS) + 1)
      else (if TickRuns s i then 0 else s.RPS) := by
  rw [← tickBlock_RPS]
  unfold loopIter Edge2Fires
  simp only []
  rw [(renderBlock_frame _ _ _).2.1, button2Block_RPS, (button1Block_frame _ _ _ _ _ _).2.1]

theorem consumed_cons (s : State) (i : Input) (is : List Input) :
    consumed s (i :: is) = (if TickRuns s i then s.RPS else 0) + consumed (loopIter s i) is :=
  rfl

theorem pressEdges_cons (s : State) (i : Input) (is : List Input) :
    pressEdges s (i :: is) =
      (if Edge2Fires s i then 1 else 0) + pressEdges (loopIter s i) is := rfl

/-- Conservation over one iteration, and the count stays an `int`. -/
theorem loopIter_conserves (s : State) (i : Input) (h0 : -2147483648 ≤ s.RPS)
    (hov : Edge2Fires s i →
      (tickBlock { s with currentState1 := i.level1, currentState2 := i.level2 }
        i.clk.tick i.clk.period).RPS < 2147483647) :
    (if TickRuns s i then s.RPS else 0) + (loopIter s i).RPS =
      s.RPS + (if Edge2Fires s i then 1 else 0) ∧
    -2147483648 ≤ (loopIter s i).RPS := by
  rw [tickBlock_RPS] at hov
  rw [loopIter_RPS]
  by_cases he : Edge2Fires s i
  · have hlt := hov he
    simp only [if_pos he]
    by_cases ht : TickRuns s i
    · simp only [if_pos ht] at hlt ⊢
      have hw : wrapInt32 (0 + 1) = 1 := by decide
      rw [hw]
      omega
    · simp only [if_neg ht] at hlt ⊢
      rw [wrapInt32_of_range _ (by omega) (by omega)]
      omega
  · simp only [if_neg he]
    by_cases ht : TickRuns s i
    · simp only [if_pos ht]
      exact ⟨trivial, by decide⟩
    · simp only [if_neg ht]
      refine ⟨?_, ?_⟩ <;> first | trivial | omega

theorem run_conserves (is : List Input) (s : State) (h0 : -2147483648 ≤ s.RPS)
    (hov : RPSBelowMax s is) :
    consumed s is + (run s is).RPS = s.RPS + pressEdges s is := by
  induction is generalizing s with
  | nil => simp [consumed, pressEdges, run_nil]
  | cons i is ih =>
    obtain ⟨h1, h2⟩ := hov
    obtain ⟨hc, hr⟩ := loopIter_conserves s i h0 h1
    have := ih (loopIter s i) hr h2
    rw [consumed_cons, pressEdges_cons, run_cons]
    omega

/-- With a clock that does not go backwards the pulse counter never comes
near the largest `int` value. -/
theorem rpsBelowMax_of_Inv (is : List Input) (s : State) (now : Nat) (h : Inv s now)
    (hc : ClockOrdered now is) : RPSBelowMax s is := by
  induction is generalizing s now with
  | nil => trivial
  | cons i is ih =>
    obtain ⟨h1, h2, h3⟩ := hc
    have h12 : Inv { s with currentState1 := i.level1, currentState2 := i.level2 } now := h
    have hb := (Inv_tick _ now i.clk.tick i.clk.period h12 h1 h2.1).2
    exact ⟨fun _ => by omega, ih (loopIter s i) i.clk.rewrite (Inv_loopIter s now i h h1 h2) h3⟩

/-- C17. Pulse conservation: over every run of the loop in which the pulse
counter does not overflow, the pulse counts the statistics ticks have consumed
plus the current pulse count equal the pulse count at the start plus the
number of PressEdges of button 2; from startup, where the count is 0, and with
a clock that does not go backwards, the counter cannot overflow and consumed
plus current equals the number of PressEdges. -/
theorem pulse_conservation (is : List Input) :
    (∀ s : State, -2147483648 ≤ s.RPS → RPSBelowMax s is →
      consumed s is + (run s is).RPS = s.RPS + pressEdges s is) ∧
    (∀ (nvs : Store) (t0 : Nat), ClockOrdered t0 is →
      consumed (startup nvs t0) is + (run (startup nvs t0) is).RPS =
        pressEdges (startup nvs t0) is) := by
  refine ⟨fun s h0 hov => run_conserves is s h0 hov, fun nvs t0 hc => ?_⟩
  have hI := Inv_startup nvs t0
  have h := run_conserves is (startup nvs t0) (by have := hI.2.2.1; omega)
    (rpsBelowMax_of_Inv is _ t0 hI hc)
  have hz : (startup nvs t0).RPS = 0 := by
    obtain ⟨d, tm⟩ := nvs
    cases d <;> cases tm <;> rfl
  rw [hz] at h
  omega

theorem pulse_conservation_witness :
    consumed (startup ⟨some 12345, some 77⟩ 3000)
      [⟨1, 1, Clock.const 3001⟩, ⟨1, 1, Clock.const 3012⟩, ⟨1, 0, Clock.const 3013⟩,
       ⟨1, 0, Clock.const 3024⟩, ⟨1, 0, Clock.const 4002⟩] +
    (run (startup ⟨some 12345, some 77⟩ 3000)
      [⟨1, 1, Clock.const 3001⟩, ⟨1, 1, Clock.const 3012⟩, ⟨1, 0, Clock.const 3013⟩,
       ⟨1, 0, Clock.const 3024⟩, ⟨1, 0, Clock.const 4002⟩]).RPS =
    pressEdges (startup ⟨some 12345, some 77⟩ 3000)
      [⟨1, 1, Clock.const 3001⟩, ⟨1, 1, Clock.const 3012⟩, ⟨1, 0, Clock.const 3013⟩,
       ⟨1, 0, Clock.const 3024⟩, ⟨1, 0, Clock.const 4002⟩] :=
  (pulse_conservation _).2 ⟨some 12345, some 77⟩ 3000
    (by simp [ClockOrdered, Clock.Ordered, Clock.const])

/-! ### Speed smoothing -/

theorem tickSeq_nil (s : State) : tickSeq s [] = s := rfl

theorem tickSeq_cons (s : State) (p : Int × Nat) (ps : List (Int × Nat)) :
    tickSeq s (p :: ps) = tickSeq (statsTick { s with RPS := p.1 } p.2) ps := rfl

theorem tickSeq_speed_bound (ps : List (Int × Nat)) (s : State) (P : Int)
    (h0 : 0 ≤ s.SpeedMS) (h1 : s.SpeedMS ≤ (P : ℚ) * (207 / 100))
    (hp : ∀ p ∈ ps, 0 ≤ p.1 ∧ p.1 ≤ P) :
    0 ≤ (tickSeq s ps).SpeedMS ∧ (tickSeq s ps).SpeedMS ≤ (P : ℚ) * (207 / 100) := by
  induction ps generalizing s with
  | nil => exact ⟨h0, h1⟩
  | cons p ps ih =>
    obtain ⟨hp0, hp1⟩ := hp p (List.mem_cons_self _ _)
    have e : (statsTick { s with RPS := p.1 } p.2).SpeedMS =
        ((p.1 : ℚ) * (207 / 100) + s.SpeedMS) / 2 := rfl
    have q0 : (0 : ℚ) ≤ (p.1 : ℚ) := by exact_mod_cast hp0
    have q1 : (p.1 : ℚ) ≤ (P : ℚ) := by exact_mod_cast hp1
    rw [tickSeq_cons]
    apply ih
    · rw [e]; positivity
    · rw [e]; linarith
    · exact fun q hq => hp q (List.mem_cons_of_mem _ hq)

theorem tickSeq_zeroTicks (ts : List Nat) (s : State) :
    (tickSeq s (zeroTicks ts)).SpeedMS = s.SpeedMS / 2 ^ ts.length ∧
    (tickSeq s (zeroTicks ts)).Distance - s.Distance =
      s.SpeedMS / 1000 * (1 - 1 / 2 ^ ts.length) := by
  induction ts generalizing s with
  | nil => simp [zeroTicks, tickSeq_nil]
  | cons t ts ih =>
    have e1 : (statsTick { s with RPS := 0 } t).SpeedMS = s.SpeedMS / 2 := by
      have : (statsTick { s with RPS := 0 } t).SpeedMS =
          (((0 : Int) : ℚ) * CIRCUMFERENCE + s.SpeedMS) / 2 := rfl
      rw [this]; simp
    have e2 : (statsTick { s with RPS := 0 } t).Distance = s.Distance + s.SpeedMS / 2 / 1000 := by
      have : (statsTick { s with RPS := 0 } t).Distance =
          s.Distance + (statsTick { s with RPS := 0 } t).SpeedMS / 1000 := rfl
      rw [this, e1]
    obtain ⟨ih1, ih2⟩ := ih (statsTick { s with RPS := 0 } t)
    have hz : zeroTicks (t :: ts) = (0, t) :: zeroTicks ts := rfl
    rw [hz, tickSeq_cons]
    simp only [List.length_cons]
    constructor
    · rw [ih1, e1, pow_succ, div_div, mul_comm]
    · have h2 : (tickSeq (statsTick { s with RPS := 0 } t) (zeroTicks ts)).Distance =
          (statsTick { s with RPS := 0 } t).Distance +
            (statsTick { s with RPS := 0 } t).SpeedMS / 1000 * (1 - 1 / 2 ^ ts.length) := by
        linarith
      rw [h2, e1, e2, pow_succ]
      field_simp
      ring

theorem one_sub_inv_pow_two (n : Nat) :
    (0 : ℚ) ≤ 1 - 1 / 2 ^ n ∧ (1 : ℚ) - 1 / 2 ^ n < 1 := by
  have hpos : (0 : ℚ) < 2 ^ n := by positivity
  have hone : (1 : ℚ) ≤ 2 ^ n := one_le_pow₀ (by norm_num)
  have hle : (1 : ℚ) / 2 ^ n ≤ 1 := by
    rw [div_le_one hpos]; exact hone
  have hgt : (0 : ℚ) < 1 / 2 ^ n := by positivity
  exact ⟨by linarith, by linarith⟩

/-- X2. The time line as the code formats it (the rule behind C18): for an
elapsed time `t ≥ 0` the three fields are `t / 3600`, `t / 60` and `t % 60`;
the seconds are below 60 and minutes * 60 + seconds = `t`, so the minutes are
the whole minutes of `t`, not those within the hour: the fields are a clock
decomposition of `t` exactly when `t < 3600`. -/
theorem timeLine_fields (s : State) (h : 0 ≤ s.totalWorkTime) :
    (UpdateBuffers s).TimeBufferAll = ⟨"TIME: %02lu:%02lu:%02lu",
      [Arg.int (s.totalWorkTime / 3600), Arg.int (s.totalWorkTime / 60),
       Arg.int (s.totalWorkTime % 60)]⟩ ∧
    0 ≤ s.totalWorkTime % 60 ∧ s.totalWorkTime % 60 < 60 ∧
    s.totalWorkTime / 60 * 60 + s.totalWorkTime % 60 = s.totalWorkTime ∧
    ((s.totalWorkTime / 60 < 60 ∧
      s.totalWorkTime / 3600 * 3600 + s.totalWorkTime / 60 * 60 + s.totalWorkTime % 60 =
        s.totalWorkTime) ↔ s.totalWorkTime < 3600) := by
  have e1 : Int.tdiv s.totalWorkTime 3600 = s.totalWorkTime / 3600 :=
    Int.tdiv_eq_ediv h (by decide)
  have e2 : Int.tdiv s.totalWorkTime 60 = s.totalWorkTime / 60 := Int.tdiv_eq_ediv h (by decide)
  have e3 : Int.tmod s.totalWorkTime 60 = s.totalWorkTime % 60 := Int.tmod_eq_emod h (by decide)
  refine ⟨?_, by omega, by omega, by omega, ?_⟩
  · simp only [UpdateBuffers, e1, e2, e3]
  · constructor
    · intro h1; omega
    · intro h1; omega

theorem timeLine_fields_witness :
    (UpdateBuffers { initial ⟨none, none⟩ with totalWorkTime := 3725 }).TimeBufferAll =
      ⟨"TIME: %02lu:%02lu:%02lu", [Arg.int (3725 / 3600), Arg.int (3725 / 60),
        Arg.int (3725 % 60)]⟩ :=
  (timeLine_fields { initial ⟨none, none⟩ with totalWorkTime := 3725 } (by decide)).1

/-- X3. The pulse counter in runs from startup (behind C13 and C17): with a
clock that does not go backwards the pulse count stays between 0 and 102,
since a PressEdge needs more than 10 ms and the count is cleared once more
than 1000 ms have passed. -/
theorem pulse_count_bounded (nvs : Store) (t0 : Nat) (is : List Input)
    (hc : ClockOrdered t0 is) :
    0 ≤ (run (startup nvs t0) is).RPS ∧ (run (startup nvs t0) is).RPS ≤ 102 := by
  obtain ⟨-, -, h3, h4, -, -⟩ := Inv_run is _ t0 (Inv_startup nvs t0) hc
  exact ⟨h3, h4⟩

theorem pulse_count_bounded_witness :
    (run (startup ⟨none, none⟩ 3000)
      [⟨1, 1, Clock.const 3001⟩, ⟨1, 1, Clock.const 3012⟩, ⟨1, 0, Clock.const 3013⟩,
       ⟨1, 0, Clock.const 3024⟩]).RPS ≤ 102 :=
  (pulse_count_bounded ⟨none, none⟩ 3000
    [⟨1, 1, Clock.const 3001⟩, ⟨1, 1, Clock.const 3012⟩, ⟨1, 0, Clock.const 3013⟩,
     ⟨1, 0, Clock.const 3024⟩] (by simp [ClockOrdered, Clock.Ordered, Clock.const])).2

/-! ### The buttons on the ESP32 -/

theorem toULong_of_lt (t : Nat) (h : t < 4294967296) : toULong t = t :=
  Nat.mod_eq_of_lt h

theorem sample2ULong_eq (s : State) (x : Sample) (h : x.2 < 4294967296) :
    sample2ULong s x = sample2 s x ∧ edge2ULong s x = edge2 s x := by
  unfold sample2ULong sample2 edge2ULong edge2
  rw [toULong_of_lt _ h]
  exact ⟨rfl, rfl⟩

theorem edges2ULong_eq (xs : List Sample) (s : State) (h : ∀ x ∈ xs, x.2 < 4294967296) :
    edges2ULong s xs = edges2 s xs ∧ run2ULong s xs = run2 s xs := by
  induction xs generalizing s with
  | nil => exact ⟨rfl, rfl⟩
  | cons x xs ih =>
    obtain ⟨h1, h2⟩ := sample2ULong_eq s x (h x (List.mem_cons_self _ _))
    obtain ⟨i1, i2⟩ := ih (sample2 s x) (fun y hy => h y (List.mem_cons_of_mem _ hy))
    constructor
    · simp only [edges2ULong, edges2, h1, h2, i1]
    · simp only [run2ULong, List.foldl_cons, h1] at i2 ⊢
      simpa [run2] using i2

theorem sample1ULong_eq (s : State) (x : Sample) (h : x.2 < 4294967296) :
    sample1ULong s x = sample1 s x ∧ hold1ULong s x = hold1 s x ∧
      press1ULong s x = press1 s x := by
  unfold sample1ULong sample1 hold1ULong hold1 press1ULong press1
  rw [toULong_of_lt _ h]
  exact ⟨rfl, rfl, rfl⟩

theorem holds1ULong_eq (xs : List Sample) (s : State) (h : ∀ x ∈ xs, x.2 < 4294967296) :
    holds1ULong s xs = holds1 s xs ∧ presses1ULong s xs = presses1 s xs := by
  induction xs generalizing s with
  | nil => exact ⟨rfl, rfl⟩
  | cons x xs ih =>
    obtain ⟨h1, h2, h3⟩ := sample1ULong_eq s x (h x (List.mem_cons_self _ _))
    obtain ⟨i1, i2⟩ := ih (sample1 s x) (fun y hy => h y (List.mem_cons_of_mem _ hy))
    constructor
    · simp only [holds1ULong, holds1, h1, h2, i1]
    · simp only [presses1ULong, presses1, h1, h3, i2]

theorem edge2ULong_true (s : State) (x : Sample) (h : edge2ULong s x = true) :
    s.lastSteadyState2 = 1 ∧ x.1 = 0 ∧ (sample2ULong s x).lastSteadyState2 = 0 := by
  simp only [edge2ULong, PressEdge2, flicker2_eq, decide_eq_true_eq] at h
  obtain ⟨h1, h2, h3⟩ := h
  refine ⟨h2, h3, ?_⟩
  simp only [sample2ULong, button2Block, accept2_eq, flicker2_eq]
  rw [if_pos h1]
  exact h3

theorem sample2ULong_steady (s : State) (x : Sample) :
    (sample2ULong s x).lastSteadyState2 = x.1 ∨
      (sample2ULong s x).lastSteadyState2 = s.lastSteadyState2 := by
  simp only [sample2ULong, button2Block, accept2_eq, flicker2_eq]
  split_ifs <;> first | exact Or.inl rfl | exact Or.inr rfl

theorem run2ULong_take_succ (s : State) (xs : List Sample) (k : Nat) (x : Sample)
    (hx : xs[k]? = some x) :
    run2ULong s (xs.take (k + 1)) = sample2ULong (run2ULong s (xs.take k)) x := by
  rw [List.take_succ, hx]
  simp [run2ULong, List.foldl_append]

theorem edges2ULong_getElem? (s : State) (xs : List Sample) (k : Nat) (b : Bool)
    (h : (edges2ULong s xs)[k]? = some b) :
    ∃ x, xs[k]? = some x ∧ edge2ULong (run2ULong s (xs.take k)) x = b := by
  induction xs generalizing s k with
  | nil => simp [edges2ULong] at h
  | cons y ys ih =>
    cases k with
    | zero =>
      simp only [edges2ULong, List.getElem?_cons_zero, Option.some.injEq] at h
      exact ⟨y, by simp, by simpa [run2ULong] using h⟩
    | succ k =>
      simp only [edges2ULong, List.getElem?_cons_succ] at h
      obtain ⟨x, hx, hb⟩ := ih (sample2ULong s y) k h
      exact ⟨x, by simpa using hx, by simpa [run2ULong] using hb⟩

/-- Between two PressEdges of button 2 on the ESP32 the level 1 is accepted at
some sample, whatever the clock reads. -/
theorem edges2ULong_separated (s : State) (xs : List Sample) (i j : Nat) (hij : i < j)
    (hi : (edges2ULong s xs)[i]? = some true) (hj : (edges2ULong s xs)[j]? = some true) :
    ∃ k x, i < k ∧ k < j ∧ xs[k]? = some x ∧ x.1 = 1 ∧
      (run2ULong s (xs.take k)).lastSteadyState2 ≠ 1 ∧
      (run2ULong s (xs.take (k + 1))).lastSteadyState2 = 1 := by
  obtain ⟨xi, hxi, hei⟩ := edges2ULong_getElem? s xs i true hi
  obtain ⟨xj, hxj, hej⟩ := edges2ULong_getElem? s xs j true hj
  obtain ⟨-, -, hzero⟩ := edge2ULong_true _ _ hei
  obtain ⟨hone, -, -⟩ := edge2ULong_true _ _ hej
  have hafter : (run2ULong s (xs.take (i + 1))).lastSteadyState2 = 0 := by
    rw [run2ULong_take_succ s xs i xi hxi]; exact hzero
  obtain ⟨k, h1, h2, h3, h4⟩ := rise_between
    (fun n => (run2ULong s (xs.take n)).lastSteadyState2) (i + 1) j (by omega)
    (by simp only []; rw [hafter]; decide) hone
  have hjlen : j < xs.length := by
    by_contra hc
    rw [List.getElem?_eq_none (by omega)] at hxj
    exact absurd hxj (by simp)
  have hk : k < xs.length := by omega
  refine ⟨k, xs[k], by omega, h2, List.getElem?_eq_getElem hk, ?_, h3, h4⟩
  rw [run2ULong_take_succ s xs k xs[k] (List.getElem?_eq_getElem hk)] at h4
  rcases sample2ULong_steady (run2ULong s (xs.take k)) xs[k] with h5 | h5
  · rw [← h5]; exact h4
  · rw [h5] at h4; exact absurd h4 h3

theorem lowSamples_lt (ts : List Nat) (h : ∀ t ∈ ts, t < 4294967296) :
    ∀ x ∈ lowSamples ts, x.2 < 4294967296 := by
  intro x hx
  simp only [lowSamples, List.mem_map] at hx
  obtain ⟨t, ht, rfl⟩ := hx
  exact h t ht

/-- X1. What a LongHold needs (the rule behind C5; button 1 on the ESP32,
timestamps below 2^32 ms): a LongHold is emitted at sample `k` only after
more than 2000 ms of samples at the pressed level, or when the run began with
the flickering level 0, every sample up to `k` is at the pressed level, and
`holdTime` is still the value the run began with. -/
theorem longHold_needs_hold (xs : List Sample) (s : State) (k : Nat)
    (hb : ∀ x ∈ xs, x.2 < 4294967296)
    (h : (holds1ULong s xs)[k]? = some true) :
    (∃ j xj xk, j ≤ k ∧ xs[j]? = some xj ∧ xs[k]? = some xk ∧
      (xk.2 : Int) - (xj.2 : Int) > 2000 ∧
      ∀ m x, j ≤ m → m ≤ k → xs[m]? = some x → x.1 = 0) ∨
    (s.lastFlickerableState1 = 0 ∧
      (∃ xk, xs[k]? = some xk ∧ (xk.2 : Int) - (s.holdTime : Int) > 2000) ∧
      ∀ m x, m ≤ k → xs[m]? = some x → x.1 = 0) := by
  rw [(holds1ULong_eq xs s hb).1] at h
  exact holds1_needs_hold xs s k h

theorem longHold_needs_hold_witness :
    (∃ j xj xk, j ≤ 4 ∧
      ([(1, 3000), (1, 3011), (0, 4000), (0, 4011), (0, 6001)] : List Sample)[j]? = some xj ∧
      ([(1, 3000), (1, 3011), (0, 4000), (0, 4011), (0, 6001)] : List Sample)[4]? = some xk ∧
      (xk.2 : Int) - (xj.2 : Int) > 2000 ∧
      ∀ m x, j ≤ m → m ≤ 4 →
        ([(1, 3000), (1, 3011), (0, 4000), (0, 4011), (0, 6001)] : List Sample)[m]? = some x →
        x.1 = 0) ∨
    ((startup ⟨none, none⟩ 3000).lastFlickerableState1 = 0 ∧
      (∃ xk, ([(1, 3000), (1, 3011), (0, 4000), (0, 4011), (0, 6001)] : List Sample)[4]? = some xk ∧
        (xk.2 : Int) - ((startup ⟨none, none⟩ 3000).holdTime : Int) > 2000) ∧
      ∀ m x, m ≤ 4 →
        ([(1, 3000), (1, 3011), (0, 4000), (0, 4011), (0, 6001)] : List Sample)[m]? = some x →
        x.1 = 0) :=
  longHold_needs_hold [(1, 3000), (1, 3011), (0, 4000), (0, 4011), (0, 6001)]
    (startup ⟨none, none⟩ 3000) 4 (by decide) (by decide)

theorem tickRuns_stored (s : State) (i : Input) : TickRuns s i.stored ↔ TickRuns s i := Iff.rfl

theorem loopIterULong_periodTime (s : State) (i : Input) :
    (loopIterULong s i).periodTime =
      if TickRuns s i then toULong i.clk.period else s.periodTime := by
  unfold loopIterULong
  rw [loopIter_periodTime]
  rfl

theorem roundEven_of_near (y : ℚ) (n : Int) (h1 : (n : ℚ) - 1 / 2 < y) (h2 : y < (n : ℚ) + 1 / 2) :
    roundEven y = n := by
  unfold roundEven
  by_cases hc : (n : ℚ) ≤ y
  · have hf : ⌊y⌋ = n := Int.floor_eq_iff.mpr ⟨hc, by linarith⟩
    rw [hf, if_pos (by linarith)]
  · have hc2 : y < (n : ℚ) := lt_of_not_le hc
    have hf : ⌊y⌋ = n - 1 := Int.floor_eq_iff.mpr
      ⟨by push_cast; linarith, by push_cast; linarith⟩
    rw [hf]
    push_cast
    rw [if_neg (by linarith), if_pos (by linarith)]
    ring

theorem roundEven_intCast (n : Int) : roundEven (n : ℚ) = n :=
  roundEven_of_near _ n (by linarith) (by linarith)

theorem roundEven_near (y : ℚ) : |(roundEven y : ℚ) - y| ≤ 1 / 2 := by
  have h1 : (⌊y⌋ : ℚ) ≤ y := Int.floor_le y
  have h2 : y < (⌊y⌋ : ℚ) + 1 := Int.lt_floor_add_one y
  unfold roundEven
  rw [abs_le]
  split_ifs <;> push_cast <;> constructor <;> linarith

theorem ulpExp_of_binade (x : ℚ) (e : Int) (he : -1022 ≤ e) (h1 : (2 : ℚ) ^ e ≤ x)
    (h2 : x < (2 : ℚ) ^ (e + 1)) : ulpExp x = e - 52 := by
  have hpos : (0 : ℚ) < x := lt_of_lt_of_le (zpow_pos (by norm_num) e) h1
  have ha : Int.log 2 x = e := by
    have hle : e ≤ Int.log 2 x :=
      (Int.zpow_le_iff_le_log (by norm_num) hpos).mp (by exact_mod_cast h1)
    have hlt : Int.log 2 x < e + 1 :=
      (Int.lt_zpow_iff_log_lt (by norm_num) hpos).mp (by exact_mod_cast h2)
    omega
  unfold ulpExp
  rw [abs_of_pos hpos, ha, max_eq_left he]

/-- The binary64 value of a positive `x` in the binade of exponent `e`. -/
theorem fl64_of_binade (x : ℚ) (e n : Int) (he : -1022 ≤ e) (h1 : (2 : ℚ) ^ e ≤ x)
    (h2 : x < (2 : ℚ) ^ (e + 1)) (hn1 : ((n : ℚ) - 1 / 2) * 2 ^ (e - 52) < x)
    (hn2 : x < ((n : ℚ) + 1 / 2) * 2 ^ (e - 52)) : fl64 x = (n : ℚ) * 2 ^ (e - 52) := by
  have hu : (0 : ℚ) < 2 ^ (e - 52) := zpow_pos (by norm_num) _
  unfold fl64
  rw [ulpExp_of_binade x e he h1 h2,
    roundEven_of_near _ n ((lt_div_iff₀ hu).mpr hn1) ((div_lt_iff₀ hu).mpr hn2)]

theorem roundEven_of_tie (y : ℚ) (n : Int) (h : y = (n : ℚ) - 1 / 2) (hn : n % 2 = 0) :
    roundEven y = n := by
  have hf : ⌊y⌋ = n - 1 := Int.floor_eq_iff.mpr
    ⟨by push_cast; linarith, by push_cast; linarith⟩
  unfold roundEven
  rw [hf]
  push_cast
  rw [if_neg (by linarith), if_neg (by linarith), if_neg (by omega)]
  ring

/-- The binary64 value of a positive `x` halfway between two binary64 numbers
of the binade of exponent `e`, the upper one with an even significand. -/
theorem fl64_of_tie (x : ℚ) (e n : Int) (he : -1022 ≤ e) (h1 : (2 : ℚ) ^ e ≤ x)
    (h2 : x < (2 : ℚ) ^ (e + 1)) (hn : n % 2 = 0)
    (hx : x = ((n : ℚ) - 1 / 2) * 2 ^ (e - 52)) : fl64 x = (n : ℚ) * 2 ^ (e - 52) := by
  have hu : (0 : ℚ) < 2 ^ (e - 52) := zpow_pos (by norm_num) _
  unfold fl64
  rw [ulpExp_of_binade x e he h1 h2,
    roundEven_of_tie _ n ((div_eq_iff (ne_of_gt hu)).mpr hx) hn]

theorem fl64_zero : fl64 0 = 0 := by
  have h : roundEven 0 = 0 := by simpa using roundEven_intCast 0
  simp [fl64, h]

/-- The rounding error of binary64 below `2 ^ (E + 1)` is at most half a unit
in the last place of that binade. -/
theorem fl64_near (x : ℚ) (E : Int) (hE : -1022 ≤ E) (h0 : 0 ≤ x) (h2 : x < (2 : ℚ) ^ (E + 1)) :
    |fl64 x - x| ≤ 2 ^ (E - 53) := by
  rcases eq_or_lt_of_le h0 with h | hpos
  · rw [← h, fl64_zero]
    simp only [sub_zero, abs_zero]
    exact le_of_lt (zpow_pos (by norm_num) _)
  · have hlog : Int.log 2 x < E + 1 :=
      (Int.lt_zpow_iff_log_lt (by norm_num) hpos).mp (by exact_mod_cast h2)
    have hu : ulpExp x ≤ E - 52 := by
      unfold ulpExp
      rw [abs_of_pos hpos]
      have := max_le (by omega : Int.log 2 x ≤ E) hE
      omega
    have hup : (0 : ℚ) < 2 ^ ulpExp x := zpow_pos (by norm_num) _
    have hr := roundEven_near (x / 2 ^ ulpExp x)
    have e1 : fl64 x - x = ((roundEven (x / 2 ^ ulpExp x) : ℚ) - x / 2 ^ ulpExp x) *
        2 ^ ulpExp x := by
      unfold fl64
      field_simp
    rw [e1, abs_mul, abs_of_pos hup]
    have hmono : (2 : ℚ) ^ ulpExp x ≤ 2 ^ (E - 52) := zpow_le_zpow_right₀ (by norm_num) hu
    have hsplit : (2 : ℚ) ^ (E - 53) = 1 / 2 * 2 ^ (E - 52) := by
      rw [show E - 53 = (E - 52) - 1 by ring, zpow_sub_one₀ (by norm_num)]
      ring
    rw [hsplit]
    exact mul_le_mul hr hmono (le_of_lt hup) (by norm_num)

/-- An integer below 2^53 in absolute value is a binary64 number. -/
theorem fl64_natCast (n : Nat) (h : n < 9007199254740992) : fl64 (n : ℚ) = n := by
  rcases Nat.eq_zero_or_pos n with h0 | hpos
  · rw [h0]; simpa using fl64_zero
  · have hq : (0 : ℚ) < (n : ℚ) := by exact_mod_cast hpos
    have hlog0 : 0 ≤ Int.log 2 (n : ℚ) :=
      (Int.zpow_le_iff_le_log (by norm_num) hq).mp (by
        simp only [zpow_zero]; exact_mod_cast hpos)
    have hlog1 : Int.log 2 (n : ℚ) < 53 :=
      (Int.lt_zpow_iff_log_lt (by norm_num) hq).mp (by
        have : ((n : ℚ)) < 9007199254740992 := by exact_mod_cast h
        norm_num
        exact_mod_cast h)
    have hu : ulpExp (n : ℚ) = Int.log 2 (n : ℚ) - 52 := by
      unfold ulpExp
      rw [abs_of_pos hq, max_eq_left (by omega)]
    obtain ⟨k, hk⟩ : ∃ k : Nat, ulpExp (n : ℚ) = -(k : Int) :=
      ⟨(52 - Int.log 2 (n : ℚ)).toNat, by rw [hu, Int.toNat_of_nonneg (by omega)]; ring⟩
    unfold fl64
    rw [hk, zpow_neg, zpow_natCast]
    have e1 : (n : ℚ) / ((2 : ℚ) ^ k)⁻¹ = (((n * 2 ^ k : Nat) : Int) : ℚ) := by
      push_cast
      field_simp
    rw [e1, roundEven_intCast]
    push_cast
    field_simp

theorem roundEven_nonneg (y : ℚ) (h : 0 ≤ y) : 0 ≤ roundEven y := by
  have hf : 0 ≤ ⌊y⌋ := Int.floor_nonneg.mpr h
  unfold roundEven
  split_ifs <;> omega

theorem fl64_nonneg (x : ℚ) (h : 0 ≤ x) : 0 ≤ fl64 x := by
  have hu : (0 : ℚ) < 2 ^ ulpExp x := zpow_pos (by norm_num) _
  unfold fl64
  exact mul_nonneg (by exact_mod_cast roundEven_nonneg _ (div_nonneg h (le_of_lt hu)))
    (le_of_lt hu)

theorem persist64_stored (s : State) :
    (persist64 s).nvs.Distance = some (toInt32 (fl64 (s.Distance * 1000))) := by
  simp [persist64, UpdateNVSData]

theorem startup64_persist64 (s : State) (t : Nat) :
    (startup64 (persist64 s).nvs t).totalWorkTime = s.totalWorkTime ∧
    (startup64 (persist64 s).nvs t).Distance =
      fl64 ((toInt32 (fl64 (s.Distance * 1000)) : ℚ) / 1000) := by
  simp [startup64, NVS, persist64, UpdateNVSData, initial]

theorem startup64_Distance (n : Int) (k : Option Int) (t : Nat) :
    (startup64 ⟨some n, k⟩ t).Distance = fl64 ((n : ℚ) / 1000) := by
  cases k <;> simp [startup64, NVS, initial]

theorem fl64_0117 :
    fl64 (117 / 1000) = 8430738502437569 / 72057594037927936 := by
  rw [fl64_of_binade (117 / 1000) (-4) 8430738502437569 (by norm_num) (by norm_num)
    (by norm_num) (by norm_num) (by norm_num)]
  norm_num

theorem fl64_below_0117 :
    fl64 (131730289100587 / 1125899906842624) = 131730289100587 / 1125899906842624 := by
  rw [fl64_of_binade (131730289100587 / 1125899906842624) (-4) 8430738502437568 (by norm_num)
    (by norm_num) (by norm_num) (by norm_num) (by norm_num)]
  norm_num

theorem fl64_below_0117_scaled :
    fl64 (131730289100587 / 1125899906842624 * 1000) = 117 := by
  rw [fl64_of_tie (131730289100587 / 1125899906842624 * 1000) 6 8233143068786688
    (by norm_num) (by norm_num) (by norm_num) (by decide) (by norm_num)]
  norm_num

theorem fl64_12345 :
    fl64 (12345 / 1000) = 6949617174986097 / 562949953421312 := by
  rw [fl64_of_binade (12345 / 1000) 3 6949617174986097 (by norm_num) (by norm_num)
    (by norm_num) (by norm_num) (by norm_num)]
  norm_num

theorem fl64_12345_scaled :
    fl64 (6949617174986097 / 562949953421312 * 1000) = 12345 := by
  rw [fl64_of_binade (6949617174986097 / 562949953421312 * 1000) 13 6786735522447360
    (by norm_num) (by norm_num) (by norm_num) (by norm_num) (by norm_num)]
  norm_num

theorem fl64_1001 :
    fl64 (1001 / 1000) = 2254051613498933 / 2251799813685248 := by
  rw [fl64_of_binade (1001 / 1000) 0 4508103226997866 (by norm_num) (by norm_num)
    (by norm_num) (by norm_num) (by norm_num)]
  norm_num

theorem fl64_1001_scaled :
    fl64 (2254051613498933 / 2251799813685248 * 1000) = 8804889115230207 / 8796093022208 := by
  rw [fl64_of_binade (2254051613498933 / 2251799813685248 * 1000) 9 8804889115230207
    (by norm_num) (by norm_num) (by norm_num) (by norm_num) (by norm_num)]
  norm_num

theorem toInt32_intCast (n : Int) (h0 : 0 ≤ n) (h1 : n < 2147483648) :
    toInt32 (n : ℚ) = n := by
  rw [toInt32_of_nonneg _ (by exact_mod_cast h0) (by exact_mod_cast h1), Int.floor_intCast]

/-- The bounds of the round trip in binary64. -/
theorem roundtrip64_bounds (d : ℚ) (h0 : 0 ≤ d * 1000) (h1 : d * 1000 ≤ 2147483647) :
    0 ≤ toInt32 (fl64 (d * 1000)) ∧ toInt32 (fl64 (d * 1000)) ≤ 2147483647 ∧
    fl64 ((toInt32 (fl64 (d * 1000)) : ℚ) / 1000) ≤ d + 1 / 2147483648 ∧
    d < fl64 ((toInt32 (fl64 (d * 1000)) : ℚ) / 1000) + 1 / 1000 + 1 / 2147483648 := by
  have hp := fl64_near (d * 1000) 30 (by norm_num) h0 (by norm_num; linarith)
  have hp0 := fl64_nonneg (d * 1000) h0
  rw [abs_le] at hp
  norm_num at hp
  obtain ⟨hpl, hpu⟩ := hp
  have hp1 : fl64 (d * 1000) < 2147483648 := by linarith
  rw [toInt32_of_nonneg _ hp0 hp1]
  have hn0 : 0 ≤ ⌊fl64 (d * 1000)⌋ := Int.floor_nonneg.mpr hp0
  have hle : ((⌊fl64 (d * 1000)⌋ : Int) : ℚ) ≤ fl64 (d * 1000) := Int.floor_le _
  have hlt : fl64 (d * 1000) < ((⌊fl64 (d * 1000)⌋ : Int) : ℚ) + 1 := Int.lt_floor_add_one _
  have hn1 : ⌊fl64 (d * 1000)⌋ ≤ 2147483647 := by
    have : ((⌊fl64 (d * 1000)⌋ : Int) : ℚ) < 2147483648 := by linarith
    have : ⌊fl64 (d * 1000)⌋ < 2147483648 := by exact_mod_cast this
    omega
  have hq0 : (0 : ℚ) ≤ ((⌊fl64 (d * 1000)⌋ : Int) : ℚ) / 1000 :=
    div_nonneg (by exact_mod_cast hn0) (by norm_num)
  have hq1 : ((⌊fl64 (d * 1000)⌋ : Int) : ℚ) / 1000 < 4194304 := by
    rw [div_lt_iff₀ (by norm_num)]
    linarith
  have hq := fl64_near (((⌊fl64 (d * 1000)⌋ : Int) : ℚ) / 1000) 21 (by norm_num) hq0
    (by norm_num; exact hq1)
  rw [abs_le] at hq
  norm_num at hq
  obtain ⟨hql, hqu⟩ := hq
  refine ⟨hn0, hn1, ?_, ?_⟩
  · linarith
  · linarith

/-- C9, as the claim states it, fails in the arithmetic of the program.  The
`double` just below 0.117 has a product with 1000 that is halfway between
117 and the `double` below it and rounds to 117.0: the distance is stored as 117 and reloaded as the `double` nearest to
0.117, which is larger than the distance written. -/
theorem persist_roundtrip_counterexample :
    fl64 (131730289100587 / 1125899906842624) = 131730289100587 / 1125899906842624 ∧
    (0 : ℚ) ≤ 131730289100587 / 1125899906842624 * 1000 ∧
    (131730289100587 / 1125899906842624 * 1000 : ℚ) < 2147483648 ∧
    (persist64 { initial ⟨none, none⟩ with
      Distance := 131730289100587 / 1125899906842624 }).nvs.Distance = some 117 ∧
    (startup64 (persist64 { initial ⟨none, none⟩ with
      Distance := 131730289100587 / 1125899906842624 }).nvs 3000).Distance =
      8430738502437569 / 72057594037927936 ∧
    ¬ ((startup64 (persist64 { initial ⟨none, none⟩ with
      Distance := 131730289100587 / 1125899906842624 }).nvs 3000).Distance ≤
      131730289100587 / 1125899906842624) := by
  have hs : toInt32 (fl64 (131730289100587 / 1125899906842624 * 1000)) = 117 := by
    rw [fl64_below_0117_scaled]
    exact toInt32_intCast 117 (by decide) (by decide)
  have hd : (startup64 (persist64 { initial ⟨none, none⟩ with
      Distance := 131730289100587 / 1125899906842624 }).nvs 3000).Distance =
      8430738502437569 / 72057594037927936 := by
    rw [(startup64_persist64 _ 3000).2]
    simp only []
    rw [hs]
    exact fl64_0117
  refine ⟨fl64_below_0117, by norm_num, by norm_num, ?_, hd, ?_⟩
  · rw [persist64_stored]
    simp only []
    rw [hs]
  · rw [hd]
    norm_num

/-- C9, amended. Persistence round trip in binary64: for a distance `d` with
`0 ≤ d * 1000 ≤ 2^31 - 1` and any elapsed time, writing the state to the
store (lines 152-154) and starting up from that store returns the elapsed
time exactly and a distance `d'` with `d' ≤ d + 2^-31` and
`d < d' + 1/1000 + 2^-31`; `d' = d` when `d` is a `double` that is a
multiple of 1/1000, and when `d` is the `double` nearest to 12.345, stored
as 12345. -/
theorem persist_roundtrip (s : State) (t : Nat)
    (h0 : 0 ≤ s.Distance * 1000) (h1 : s.Distance * 1000 ≤ 2147483647) :
    (startup64 (persist64 s).nvs t).totalWorkTime = s.totalWorkTime ∧
    (startup64 (persist64 s).nvs t).Distance ≤ s.Distance + 1 / 2147483648 ∧
    s.Distance < (startup64 (persist64 s).nvs t).Distance + 1 / 1000 + 1 / 2147483648 ∧
    (∀ n : Int, s.Distance = (n : ℚ) / 1000 → fl64 s.Distance = s.Distance →
      (startup64 (persist64 s).nvs t).Distance = s.Distance) ∧
    (s.Distance = fl64 (12345 / 1000) → (persist64 s).nvs.Distance = some 12345 ∧
      (startup64 (persist64 s).nvs t).Distance = s.Distance) := by
  obtain ⟨ht, hd⟩ := startup64_persist64 s t
  obtain ⟨-, -, hb1, hb2⟩ := roundtrip64_bounds s.Distance h0 h1
  refine ⟨ht, by rw [hd]; exact hb1, by rw [hd]; exact hb2, ?_, ?_⟩
  · intro n hn hfl
    have h2 : s.Distance * 1000 = (n : ℚ) := by rw [hn]; field_simp
    have hn0 : 0 ≤ n := by
      have : (0 : ℚ) ≤ (n : ℚ) := by rw [← h2]; exact h0
      exact_mod_cast this
    have hn1 : n ≤ 2147483647 := by
      have : (n : ℚ) ≤ 2147483647 := by rw [← h2]; exact h1
      exact_mod_cast this
    have hcast : (n : ℚ) = ((n.toNat : Nat) : ℚ) := by
      have : ((n.toNat : Nat) : Int) = n := Int.toNat_of_nonneg hn0
      exact_mod_cast this.symm
    have hfn : fl64 (n : ℚ) = (n : ℚ) := by
      rw [hcast]
      exact fl64_natCast _ (by omega)
    rw [hd, h2, hfn, toInt32_intCast n hn0 (by omega), ← hn]
    exact hfl
  · intro h
    have hs : toInt32 (fl64 (s.Distance * 1000)) = 12345 := by
      rw [h, fl64_12345, fl64_12345_scaled]
      exact toInt32_intCast 12345 (by decide) (by decide)
    refine ⟨by rw [persist64_stored, hs], ?_⟩
    rw [hd, hs, h]
    norm_num

theorem persist_roundtrip_witness :
    (startup64 (persist64 { initial ⟨none, none⟩ with
      Distance := 6949617174986097 / 562949953421312, totalWorkTime := 77 }).nvs
      3000).totalWorkTime = 77 ∧
    (persist64 { initial ⟨none, none⟩ with
      Distance := 6949617174986097 / 562949953421312, totalWorkTime := 77 }).nvs.Distance =
      some 12345 ∧
    (startup64 (persist64 { initial ⟨none, none⟩ with
      Distance := 6949617174986097 / 562949953421312, totalWorkTime := 77 }).nvs
      3000).Distance = 6949617174986097 / 562949953421312 := by
  have h := persist_roundtrip { initial ⟨none, none⟩ with
    Distance := 6949617174986097 / 562949953421312, totalWorkTime := 77 } 3000
    (by norm_num) (by norm_num)
  exact ⟨h.1, (h.2.2.2.2 fl64_12345.symm).1, (h.2.2.2.2 fl64_12345.symm).2⟩

/-- X4. A stored distance is not a fixed point of reload and write: the value
1001 is reloaded as the `double` nearest to 1.001, whose product with 1000
rounds to a `double` below 1001, and the next write stores 1000. -/
theorem reload_then_persist_loses :
    (startup64 ⟨some 1001, some 77⟩ 3000).Distance = 2254051613498933 / 2251799813685248 ∧
    (persist64 (startup64 ⟨some 1001, some 77⟩ 3000)).nvs.Distance = some 1000 := by
  have hd := startup64_Distance 1001 (some 77) 3000
  have hd2 : (startup64 ⟨some 1001, some 77⟩ 3000).Distance =
      2254051613498933 / 2251799813685248 := by
    rw [hd]
    norm_num
    exact fl64_1001
  refine ⟨hd2, ?_⟩
  rw [persist64_stored, hd2, fl64_1001_scaled,
    toInt32_of_nonneg _ (by norm_num) (by norm_num)]
  have : ⌊(8804889115230207 / 8796093022208 : ℚ)⌋ = 1000 :=
    Int.floor_eq_iff.mpr ⟨by norm_num, by norm_num⟩
  rw [this]

end Tachometer
